import Mathlib

/-!
Verification development for the qwc2 UI components repository.

The development shallowly embeds the state-relevant logic of
`src/plugins/MapInfoTooltip.jsx` and `src/components/QtDesignerForm.jsx`:

* `MapInfoTooltip`: the component state (`point`, `elevation`, `height`,
  `extraInfo`), the `clear` operation, the `componentDidUpdate` click
  handling (including the pixel-deduplication check and the service
  requests it issues), the application of elevation / map-info responses,
  and the assembly of the popup's info rows.
* `QtDesignerForm`: the form-load commit flow of `parseForm` (loading
  flags, per-request identifiers, the preprocessor callback guard), the
  `buildErrMsg` formatting, the `kvrel__` / `nrel__` widget-name grammar,
  the `computeLayoutColumns` sizing algorithm, and the
  `reformatWidget` / `reformatLayout` normalization pass over the parsed
  widget tree together with the registries it populates.

JavaScript strings are embedded as Lean `String`; `String.prototype.split`
and `String.prototype.startsWith` are modelled on the underlying character
lists (`strSplitDU`, `strStartsWith`).  JavaScript numbers appearing in the
claims are embedded as `ℚ` (elevation values) or `Nat` (counters, pixel
indices), with `Math.round` modelled as `⌊x + 1/2⌋`.
-/

namespace MapInfoTooltip

/-- A map click event, as read from `this.props.map.click`:
a pixel position, a map coordinate and the mouse button. -/
structure ClickPoint where
  pixel : Int × Int
  coordinate : Int × Int
  button : Int
deriving DecidableEq

/-- The component state of `MapInfoTooltip` (`src/plugins/MapInfoTooltip.jsx`):
`point`, `elevation` and `extraInfo` are declared in the initial state;
`height` is only ever written by `clear` (and starts out absent). -/
structure TooltipState where
  point : Option ClickPoint
  elevation : Option ℚ
  height : Option ℚ
  extraInfo : Option (List (String × String))
deriving DecidableEq

/-- The initial component state `{point: null, elevation: null, extraInfo: null}`. -/
def initTooltipState : TooltipState := ⟨none, none, none, none⟩

/-- A best-effort HTTP request issued by `componentDidUpdate`. -/
inductive ServiceRequest where
  | getElevation (pos : Int × Int) (crs : String)
  | getMapInfo (pos : Int × Int) (crs : String)
deriving DecidableEq

/-- `clear` (MapInfoTooltip.jsx line 103-105):
`this.setState({point: null, height: null, extraInfo: null})`.
Note that it writes `height`, not `elevation`. -/
def clear (s : TooltipState) : TooltipState :=
  { s with point := none, height := none, extraInfo := none }

/-- `componentDidUpdate` (MapInfoTooltip.jsx lines 72-102), as a pure
function of the props seen by the update (`enabled`, the previous and the
new `map.click`, the map projection, which services are configured) and the
current state.  Returns the updated state together with the list of service
requests issued by this update. -/
def componentDidUpdate (enabled : Bool) (proj : String) (elevSvc mapSvc : Bool)
    (prevClick : Option ClickPoint) (s : TooltipState) (newClick : Option ClickPoint) :
    TooltipState × List ServiceRequest :=
  if enabled = false ∧ s.point.isSome then (clear s, [])
  else
    match newClick with
    | none => if s.point.isSome then (clear s, []) else (s, [])
    | some np =>
      if np.button ≠ 2 then
        if s.point.isSome then (clear s, []) else (s, [])
      else
        let issue : Bool :=
          match prevClick with
          | none => true
          | some op => decide (op.pixel.1 ≠ np.pixel.1) || decide (op.pixel.2 ≠ np.pixel.2)
        if issue then
          ({ s with point := some np, elevation := none },
            (if elevSvc then [ServiceRequest.getElevation np.coordinate proj] else []) ++
            (if mapSvc then [ServiceRequest.getMapInfo np.coordinate proj] else []))
        else (s, [])

/-- `Math.round`, i.e. `⌊x + 1/2⌋`, on exact rationals. -/
def jsRound (x : ℚ) : ℤ := ⌊x + 1 / 2⌋

/-- The elevation value stored by the elevation response handler
(MapInfoTooltip.jsx line 91):
`Math.round(response.data.elevation * 10^p) / 10^p`. -/
def storedElevation (precision : ℕ) (elev : ℚ) : ℚ :=
  (jsRound (elev * 10 ^ precision) : ℚ) / 10 ^ precision

/-- Applying an elevation-service response to the component state. -/
def applyElevationResponse (precision : ℕ) (elev : ℚ) (s : TooltipState) : TooltipState :=
  { s with elevation := some (storedElevation precision elev) }

/-- Applying a map-info-service response to the component state. -/
def applyMapInfoResponse (rows : List (String × String)) (s : TooltipState) : TooltipState :=
  { s with extraInfo := some rows }

/-- JavaScript truthiness of `this.state.elevation`:
`null` and `0` are falsy, any other number is truthy. -/
def truthyElev : Option ℚ → Bool
  | some v => if v = 0 then false else true
  | none => false

/-- The info rows assembled by `render` (MapInfoTooltip.jsx lines 111-138):
the coordinate rows, then the elevation row if `this.state.elevation` is
truthy, then the extra map-info rows if present. -/
def infoRows (coordRows : List (String × String)) (s : TooltipState) : List (String × String) :=
  let withElev :=
    match s.elevation with
    | some v =>
      if v = 0 then coordRows
      else coordRows ++ [("mapinfotooltip.elevation", toString v ++ " m")]
    | none => coordRows
  match s.extraInfo with
  | some rows => withElev ++ rows
  | none => withElev

end MapInfoTooltip

namespace QtDesignerForm

/-- The slice of `QtDesignerForm`'s component state driving the form load
(`formdata`, `loading`, `loadingReqId` of `defaultState`); the committed
form data is abstracted as a `Nat` payload identifier. -/
structure FormLoadState where
  formData : Option Nat
  loading : Bool
  loadingReqId : Option Nat
deriving DecidableEq

/-- `QtDesignerForm.defaultState`: no form data, not loading, no request id. -/
def defaultFormState : FormLoadState := ⟨none, false, none⟩

/-- `parseForm` (QtDesignerForm.jsx lines 648-684), restricted to its
state-commit behaviour, run when a form-XML response arrives: a fresh
request id is recorded together with `loading: true`; if a preprocessor is
registered for the edit layer the commit is deferred to its callback,
otherwise the parsed data is committed immediately and unconditionally. -/
def parseFormLoad (hasPreproc : Bool) (d reqId : Nat) (s : FormLoadState) : FormLoadState :=
  let s1 := { s with loading := true, loadingReqId := some reqId }
  if hasPreproc then s1
  else { s1 with formData := some d, loading := false, loadingReqId := none }

/-- The preprocessor callback passed by `parseForm` (lines 675-679): the
rewritten form data is committed only if the recorded `loadingReqId` still
equals the id of the parse that registered the callback. -/
def preprocDone (d reqId : Nat) (s : FormLoadState) : FormLoadState :=
  if s.loadingReqId = some reqId then
    { s with formData := some d, loading := false, loadingReqId := none }
  else s

/-- An asynchronous completion event of the form-load flow: a form-XML
response arriving (which runs `parseFormLoad`), or a preprocessor callback
returning (which runs `preprocDone`). -/
inductive FormEvent where
  | respArrived (d reqId : Nat)
  | preprocReturned (d reqId : Nat)
deriving DecidableEq

/-- One step of the event-loop-driven form-load flow. -/
def formStep (hasPreproc : Bool) (s : FormLoadState) : FormEvent → FormLoadState
  | .respArrived d r => parseFormLoad hasPreproc d r s
  | .preprocReturned d r => preprocDone d r s

/-- Running a sequence of completion events against the component state. -/
def runFormEvents (hasPreproc : Bool) (evs : List FormEvent) (s : FormLoadState) : FormLoadState :=
  evs.foldl (formStep hasPreproc) s

/-- `String.prototype.startsWith`, modelled on the character lists. -/
def strStartsWith (s pre : String) : Bool :=
  pre.data.isPrefixOf s.data

/-- The worker of `strSplitDU`: splits a character list at every
(leftmost, non-overlapping) occurrence of `"__"`, accumulating the
characters of the current segment in reverse. -/
def splitDU : List Char → List Char → List (List Char)
  | [], acc => [acc.reverse]
  | '_' :: '_' :: rest, acc => acc.reverse :: splitDU rest []
  | c :: rest, acc => splitDU rest (c :: acc)

/-- `name.split("__")`: JavaScript splitting on the literal separator
`"__"` (leftmost, non-overlapping matches). -/
def strSplitDU (s : String) : List String :=
  (splitDU s.data []).map (fun l => ⟨l⟩)

/-- A relation-table descriptor as recorded in the `relationTables` object
(QtDesignerForm.jsx line 745): `{fk: parts[2], sortcol: parts[3] || null,
noreorder: parts[4] || false}`.  The JavaScript-falsy values (`undefined`
and the empty string) of the optional tokens are collapsed to `none`. -/
structure RelDesc where
  fk : String
  sortcol : Option String
  noreorder : Option String
deriving DecidableEq

/-- The `relationTables` entry derived from a widget name in
`reformatWidget` (QtDesignerForm.jsx lines 743-746): only names whose
`split("__")` has at least three parts and starts with `nrel` produce an
entry, keyed by `mapPrefix + parts[1]`. -/
def nrelRelationEntry (mapPrefix nm : String) : Option (String × RelDesc) :=
  let parts := strSplitDU nm
  if 3 ≤ parts.length ∧ parts.getD 0 "" = "nrel" then
    some (mapPrefix ++ parts.getD 1 "",
      { fk := parts.getD 2 ""
        sortcol :=
          match parts.get? 3 with
          | some st => if st = "" then none else some st
          | none => none
        noreorder :=
          match parts.get? 4 with
          | some st => if st = "" then none else some st
          | none => none })
  else none

/-- The `kvrel__` combo-box dispatch of `renderWidget`
(QtDesignerForm.jsx lines 387-397): for a widget name splitting into five
or six parts with head `kvrel`, the derived field id is
`parts.slice(1, count - 3).join("__")` and the key/value lookup relation
key is `mapPrefix + parts[count-3] + ":" + parts[count-2] + ":" +
parts[count-1]`.  Returns `(fieldId, keyvalrel)`. -/
def kvrelComboInfo (mapPrefix nm : String) : Option (String × String) :=
  let parts := strSplitDU nm
  if (parts.length = 5 ∨ parts.length = 6) ∧ parts.getD 0 "" = "kvrel" then
    some (String.intercalate "__" ((parts.drop 1).take (parts.length - 4)),
      mapPrefix ++ parts.getD (parts.length - 3) "" ++ ":" ++
        parts.getD (parts.length - 2) "" ++ ":" ++ parts.getD (parts.length - 1) "")
  else none

/-- A relation-row record as consumed by `buildErrMsg`: the base error and
the `error_details` lists (geometry errors carry a reason and a location). -/
structure ErrRecord where
  error : String
  geometry_errors : List (String × String)
  data_errors : List String
  validation_errors : List String
deriving DecidableEq

/-- `buildErrMsg` (QtDesignerForm.jsx lines 772-786).  Note that the
geometry branch appends the mapped *array* to the string, which JavaScript
stringifies by joining the entries with `","`; the data and validation
branches use an explicit `join("\n - ")`. -/
def buildErrMsg (record : ErrRecord) : String :=
  let m1 := record.error
  let m2 :=
    if record.geometry_errors.isEmpty then m1
    else m1 ++ ":\n" ++
      String.intercalate ","
        (record.geometry_errors.map (fun e => " - " ++ e.1 ++ " at " ++ e.2))
  let m3 :=
    if record.data_errors.isEmpty then m2
    else m2 ++ ":\n - " ++ String.intercalate "\n - " record.data_errors
  if record.validation_errors.isEmpty then m3
  else m3 ++ ":\n - " ++ String.intercalate "\n - " record.validation_errors

mutual
/-- A widget node of the (possibly not yet normalized) parsed form tree:
class, optional name, optional property/attribute lists, `widget.item`
entries (combo-box items, which `reformatWidget` recurses into as
widgets), an optional child layout, and `widget.widget` children (tab /
stack pages; the empty list models an absent `widget` field). -/
inductive Widget : Type where
  | mk (wclass : String) (name : Option String)
      (props attrs : Option (List (String × String)))
      (items : List Widget) (wlayout : Option Layout) (children : List Widget)
/-- A layout node: class (`QGridLayout`, `QFormLayout`, `QVBoxLayout`,
`QHBoxLayout`), optional name, item list and the `verticalFill` flag set
by `reformatLayout` (absent before normalization). -/
inductive Layout : Type where
  | mk (lclass : String) (name : Option String) (items : List Item) (vfill : Option Bool)
/-- A layout item, wrapping exactly one of widget / nested layout / spacer,
or nothing (a falsy entry); grid items carry `row`/`column`/`rowspan`/
`colspan` attributes. -/
inductive Item : Type where
  | iwidget (row col rowspan colspan : Option Nat) (w : Widget)
  | ilayout (row col rowspan colspan : Option Nat) (l : Layout)
  | ispacer (row col rowspan colspan : Option Nat) (props : Option (List (String × String)))
  | inone
end

/-- The widget's class. -/
def Widget.wclass : Widget → String
  | .mk c _ _ _ _ _ _ => c

/-- The widget's (optional) name. -/
def Widget.name : Widget → Option String
  | .mk _ n _ _ _ _ _ => n

/-- The widget's (optional) property list/map. -/
def Widget.props : Widget → Option (List (String × String))
  | .mk _ _ p _ _ _ _ => p

/-- The widget's (optional) attribute list/map. -/
def Widget.attrs : Widget → Option (List (String × String))
  | .mk _ _ _ a _ _ _ => a

/-- Reading a key from a normalized name→value map (`obj.key` in JS). -/
def propGet (m : List (String × String)) (k : String) : Option String :=
  (m.find? (fun p => p.1 == k)).map (fun p => p.2)

/-- `item.column` (absent modelled as `none`; `parseInt(...) || 0` is
applied at use sites). -/
def Item.col : Item → Option Nat
  | .iwidget _ c _ _ _ => c
  | .ilayout _ c _ _ _ => c
  | .ispacer _ c _ _ _ => c
  | .inone => none

/-- `item.colspan` (absent modelled as `none`). -/
def Item.colspanTok : Item → Option Nat
  | .iwidget _ _ _ cs _ => cs
  | .ilayout _ _ _ cs _ => cs
  | .ispacer _ _ _ cs _ => cs
  | .inone => none

/-- `item.spacer?.property` — the spacer's property map, when the item is
a spacer. -/
def Item.spacerProps : Item → Option (List (String × String))
  | .ispacer _ _ _ _ p => p
  | _ => none

/-- `item.widget?.class` — the wrapped widget's class, when present. -/
def Item.widgetClass : Item → Option String
  | .iwidget _ _ _ _ w => some w.wclass
  | _ => none

/-- `item.spacer?.property?.orientation === "Qt::Horizontal"`. -/
def isHSpacer (it : Item) : Bool :=
  match it.spacerProps with
  | some m => propGet m "orientation" == some "Qt::Horizontal"
  | none => false

/-- The "compact" widget classes for column sizing
(QtDesignerForm.jsx line 53). -/
def hFitWidgets : List String :=
  ["QLabel", "QCheckBox", "QRadioButton", "Line", "QDateTimeEdit", "QDateEdit", "QTimeEdit"]

/-- The "compact" widget classes for row sizing
(QtDesignerForm.jsx line 54). -/
def vFitWidgets : List String :=
  ["QLabel", "QCheckBox", "QRadioButton", "Line", "QDateTimeEdit", "QDateEdit", "QTimeEdit",
   "QPushButton", "QComboBox", "QLineEdit", "QSpinBox", "QDoubleSpinBox", "QSlider"]

/-- `hFitWidgets.includes(item.widget?.class)` (false for `undefined`). -/
def hFitIncludes : Option String → Bool
  | some s => hFitWidgets.contains s
  | none => false

/-- JavaScript sparse-array write `columns[col] = v`: pads the list with
holes (`none`) up to index `col` if needed. -/
def setA : List (Option String) → Nat → Option String → List (Option String)
  | [], 0, v => [v]
  | [], Nat.succ n, v => none :: setA [] n v
  | _ :: xs, 0, v => v :: xs
  | x :: xs, Nat.succ n, v => x :: setA xs n v

/-- The `items.forEach` loop of `computeLayoutColumns`
(QtDesignerForm.jsx lines 210-222), threading the sparse `columns` array
(`some "auto"` for auto entries, `none` for holes/placeholders) and the
`hasAuto` flag.  `hasSpacer` is the precomputed
`items.find(item => item.spacer?.property?.orientation === "Qt::Horizontal")`. -/
def clcStep (hasSpacer useIndex : Bool) :
    List Item → Nat → List (Option String) → Bool → List (Option String) × Bool
  | [], _, cols, hasAuto => (cols, hasAuto)
  | it :: rest, idx, cols, hasAuto =>
    let col := if useIndex then idx else (it.col).getD 0
    let colSpan := if useIndex then 1 else
      (match it.colspanTok with
       | some n => if n = 0 then 1 else n
       | none => 1)
    if isHSpacer it then
      clcStep hasSpacer useIndex rest (idx + 1) (setA cols col (some "auto")) true
    else if !hasSpacer && !(hFitIncludes it.widgetClass) && colSpan == 1 then
      clcStep hasSpacer useIndex rest (idx + 1) (setA cols col (some "auto")) true
    else
      clcStep hasSpacer useIndex rest (idx + 1) (setA cols col (cols.getD col none)) hasAuto

/-- `Math.round(1 / len * 100)` on naturals (`0` stands in for the
JavaScript `Infinity` of the unused `len = 0` case). -/
def jsRoundPct (len : Nat) : Nat :=
  if len = 0 then 0 else (200 + len) / (2 * len)

/-- `computeLayoutColumns` (QtDesignerForm.jsx lines 206-228): after the
`forEach` pass, every surviving hole/placeholder becomes the
`fit-content(100%/columnCount)` share if some column was marked `auto`,
and every column becomes `"auto"` otherwise. -/
def computeLayoutColumns (items : List Item) (useIndex : Bool) : List String :=
  let hasSpacer := items.any isHSpacer
  match clcStep hasSpacer useIndex items 0 [] false with
  | (cols, hasAuto) =>
    let fit := "fit-content(" ++ toString (jsRoundPct cols.length) ++ "%)"
    cols.map (fun c => if hasAuto then (match c with | some st => st | none => fit) else "auto")

/-- The registry/counter state threaded through
`reformatWidget`/`reformatLayout`: the synthetic-name counters, the
`relationTables` map handed to `setRelationTables`, and the
`fields`/`buttons`/`nrels`/`externalFields`/`widgets` registries attached
to the parsed form. -/
structure RSt where
  wc : Nat
  lc : Nat
  rels : List (String × RelDesc)
  fields : List (String × Widget)
  buttons : List (String × Widget)
  nrels : List (String × Widget)
  exts : List (String × String)
  widgets : List (String × Widget)

/-- The state `parseForm` starts each parse from: zeroed counters and
empty registries. -/
def initRSt : RSt := ⟨0, 0, [], [], [], [], [], []⟩

/-- JavaScript object write `{...res, [k]: v}`: updates the value in
place if the key exists (keeping key order), otherwise appends. -/
def objInsert {α : Type} (m : List (String × α)) (k : String) (v : α) : List (String × α) :=
  if m.any (fun p => p.1 == k) then
    m.map (fun p => if p.1 == k then (k, v) else p)
  else m ++ [(k, v)]

/-- `MiscUtils.ensureArray(list).reduce((res, prop) => ({...res,
[prop.name]: prop[...]}), {})`: folding a name/value list into a map. -/
def normalizeProps (l : List (String × String)) : List (String × String) :=
  l.foldl (fun res p => objInsert res p.1 p.2) []

/-- The fresh synthetic widget name `":widget_" + counters.widget++`. -/
def freshWName (s : RSt) : String × RSt :=
  (":widget_" ++ toString s.wc, { s with wc := s.wc + 1 })

/-- The fresh synthetic layout name `":layout_" + counters.layout++`. -/
def freshLName (s : RSt) : String × RSt :=
  (":layout_" ++ toString s.lc, { s with lc := s.lc + 1 })

/-- `widget.name = widget.name || (":widget_" + counters.widget++)`,
with `forceName` modelling the unconditional renaming a parent container
applies to its `widget.widget` children before recursing. -/
def nextWName (forceName nm : Option String) (s : RSt) : String × RSt :=
  match forceName with
  | some f => (f, s)
  | none =>
    match nm with
    | some n => if n = "" then freshWName s else (n, s)
    | none => freshWName s

/-- `layout.name = layout.name || (":layout_" + counters.layout++)`. -/
def nextLName (nm : Option String) (s : RSt) : String × RSt :=
  match nm with
  | some n => if n = "" then freshLName s else (n, s)
  | none => freshLName s

/-- The registry updates of `reformatWidget` for a (fully normalized)
widget with final name `nm` (QtDesignerForm.jsx lines 709-726 and
743-746): classification into `fields`/`buttons`/`nrels` by the
name-prefix grammar, the `externalFields` entry for `ext__` names, the
`widgets` registry, and the `relationTables` entry for `nrel__` names. -/
def registerWidget (pf : List String) (mp : String) (nm : String) (w : Widget) (s : RSt) : RSt :=
  let s1 :=
    if pf.contains nm then { s with fields := objInsert s.fields nm w }
    else if strStartsWith nm "kvrel__" || strStartsWith nm "img__" then
      match (strSplitDU nm)[1]? with
      | some p1 => if pf.contains p1 then { s with fields := objInsert s.fields p1 w } else s
      | none => s
    else if strStartsWith nm "btn__" then
      { s with buttons := objInsert s.buttons ((strSplitDU nm).getD 1 "") w }
    else if strStartsWith nm "nrel__" then
      { s with nrels := objInsert s.nrels ((strSplitDU nm).getD 1 "") w }
    else s
  let s2 :=
    if strStartsWith nm "ext__" then { s1 with exts := objInsert s1.exts (nm.drop 5) "" }
    else s1
  let s3 := { s2 with widgets := objInsert s2.widgets nm w }
  match nrelRelationEntry mp nm with
  | some kd => { s3 with rels := objInsert s3.rels kd.1 kd.2 }
  | none => s3

mutual
/-- `reformatWidget` (QtDesignerForm.jsx lines 685-748) as a pure
function: normalizes the property/attribute lists, recurses into
`widget.item`, assigns the name (`forceName` when a parent pre-assigned
one), recurses into `widget.layout` and `widget.widget` (renaming each
child with a fresh synthetic name first), registers the widget and its
`relationTables` entry, and returns the normalized node together with the
`verticalFill` flag and the updated state. -/
def reformatWidget (pf : List String) (mp : String) (forceName : Option String)
    (w : Widget) (s0 : RSt) : Widget × Bool × RSt :=
  match w with
  | .mk wclass nm props attrs items wlayout children =>
    match reformatWidgetItems pf mp items s0 with
    | (items', vf1, s1) =>
      match nextWName forceName nm s1 with
      | (name', s2) =>
        match reformatOptLayout pf mp wlayout s2 with
        | (wlayout', vf2, s3) =>
          match reformatForcedChildren pf mp children s3 with
          | (children', vf3, s4) =>
            let finalW := Widget.mk wclass (some name')
              (some (normalizeProps (props.getD [])))
              (some (normalizeProps (attrs.getD [])))
              items' wlayout' children'
            let vf := vf1 || vf2 || vf3
            let vfFinal :=
              if strStartsWith name' "nrel__" || (wlayout.isNone && !(vFitWidgets.contains wclass)) then
                true
              else vf
            (finalW, vfFinal, registerWidget pf mp name' finalW s4)

/-- The `widget.item` recursion of `reformatWidget` (lines 701-705). -/
def reformatWidgetItems (pf : List String) (mp : String)
    (ws : List Widget) (s : RSt) : List Widget × Bool × RSt :=
  match ws with
  | [] => ([], false, s)
  | w :: rest =>
    match reformatWidget pf mp none w s with
    | (w', v, s') =>
      match reformatWidgetItems pf mp rest s' with
      | (rest', v2, s'') => (w' :: rest', v || v2, s'')

/-- The `widget.layout` recursion of `reformatWidget` (lines 728-730). -/
def reformatOptLayout (pf : List String) (mp : String)
    (ol : Option Layout) (s : RSt) : Option Layout × Bool × RSt :=
  match ol with
  | none => (none, false, s)
  | some l =>
    match reformatLayout pf mp l s with
    | (l', v, s') => (some l', v, s')

/-- The `widget.widget` recursion of `reformatWidget` (lines 731-737):
each child is renamed with a fresh synthetic name before recursing. -/
def reformatForcedChildren (pf : List String) (mp : String)
    (ws : List Widget) (s : RSt) : List Widget × Bool × RSt :=
  match ws with
  | [] => ([], false, s)
  | w :: rest =>
    match freshWName s with
    | (f, s') =>
      match reformatWidget pf mp (some f) w s' with
      | (w', v, s'') =>
        match reformatForcedChildren pf mp rest s'' with
        | (rest', v2, s''') => (w' :: rest', v || v2, s''')

/-- `reformatLayout` (QtDesignerForm.jsx lines 749-771): assigns the
layout name, processes the item list and records the computed
`verticalFill` flag on the layout. -/
def reformatLayout (pf : List String) (mp : String)
    (l : Layout) (s0 : RSt) : Layout × Bool × RSt :=
  match l with
  | .mk lclass nm items _vf0 =>
    match nextLName nm s0 with
    | (name', s1) =>
      match reformatItems pf mp items s1 with
      | (items', vf, s2) => (Layout.mk lclass (some name') items' (some vf), vf, s2)

/-- The `layout.item.forEach` loop of `reformatLayout` (lines 753-768). -/
def reformatItems (pf : List String) (mp : String)
    (its : List Item) (s : RSt) : List Item × Bool × RSt :=
  match its with
  | [] => ([], false, s)
  | it :: rest =>
    match reformatItem pf mp it s with
    | (it', v, s') =>
      match reformatItems pf mp rest s' with
      | (rest', v2, s'') => (it' :: rest', v || v2, s'')

/-- One iteration of the `reformatLayout` loop: widgets recurse into
`reformatWidget`, spacers get their property map normalized (a vertical
spacer sets `verticalFill`), nested layouts recurse, falsy items are
skipped. -/
def reformatItem (pf : List String) (mp : String)
    (it : Item) (s : RSt) : Item × Bool × RSt :=
  match it with
  | .inone => (.inone, false, s)
  | .iwidget r c rs cs w =>
    match reformatWidget pf mp none w s with
    | (w', v, s') => (.iwidget r c rs cs w', v, s')
  | .ispacer r c rs cs props =>
    let m := normalizeProps (props.getD [])
    (.ispacer r c rs cs (some m), propGet m "orientation" == some "Qt::Vertical", s)
  | .ilayout r c rs cs l =>
    match reformatLayout pf mp l s with
    | (l', v, s') => (.ilayout r c rs cs l', v, s')
end

mutual
/-- The normalization invariant claimed for `reformatWidget`: this widget
and every widget reachable below it has a non-null property map, a
non-null attribute map and a non-empty name. -/
def goodW : Widget → Bool
  | .mk _ nm props attrs items wlayout children =>
    props.isSome && attrs.isSome &&
      (match nm with
       | some n => !(n == "")
       | none => false) &&
      goodWList items && goodOptL wlayout && goodWList children
/-- `goodW` over a widget list. -/
def goodWList : List Widget → Bool
  | [] => true
  | w :: ws => goodW w && goodWList ws
/-- `goodL` over an optional layout. -/
def goodOptL : Option Layout → Bool
  | none => true
  | some l => goodL l
/-- The invariant at layout nodes: all reachable widgets below are good. -/
def goodL : Layout → Bool
  | .mk _ _ items _ => goodIList items
/-- `goodI` over an item list. -/
def goodIList : List Item → Bool
  | [] => true
  | it :: rest => goodI it && goodIList rest
/-- The invariant at layout items: the wrapped widget/layout is good. -/
def goodI : Item → Bool
  | .iwidget _ _ _ _ w => goodW w
  | .ilayout _ _ _ _ l => goodL l
  | _ => true
end

/-- Collapses synthetic names (those starting with `":"`, the prefix of
the per-parse counter names `:widget_i` / `:layout_i`, which no
XML-supplied name subject to the prefix grammar uses) to `":"`, leaving
real names unchanged. -/
def eraseSynth (n : Option String) : Option String :=
  match n with
  | some s => if strStartsWith s ":" then some ":" else some s
  | none => none

mutual
/-- Erases synthetic names throughout a widget tree: two trees equal
after erasure have the same semantic structure, differing at most in the
synthetic names assigned by the per-parse counters. -/
def eraseW : Widget → Widget
  | .mk c nm p a items lay ch =>
    .mk c (eraseSynth nm) p a (eraseWList items) (eraseOptL lay) (eraseWList ch)
/-- `eraseW` over a widget list. -/
def eraseWList : List Widget → List Widget
  | [] => []
  | w :: ws => eraseW w :: eraseWList ws
/-- `eraseL` over an optional layout. -/
def eraseOptL : Option Layout → Option Layout
  | none => none
  | some l => some (eraseL l)
/-- Erases synthetic names throughout a layout. -/
def eraseL : Layout → Layout
  | .mk c nm items vf => .mk c (eraseSynth nm) (eraseIList items) vf
/-- `eraseI` over an item list. -/
def eraseIList : List Item → List Item
  | [] => []
  | it :: rest => eraseI it :: eraseIList rest
/-- Erases synthetic names below a layout item. -/
def eraseI : Item → Item
  | .iwidget r c rs cs w => .iwidget r c rs cs (eraseW w)
  | .ilayout r c rs cs l => .ilayout r c rs cs (eraseL l)
  | it => it
end

/-- Erases synthetic names in the widget values of a registry. -/
def eraseReg (m : List (String × Widget)) : List (String × Widget) :=
  m.map (fun p => (p.1, eraseW p.2))

/-- Semantic agreement of two registry states: equal `relationTables`,
equal `fields`/`buttons`/`nrels` registries up to synthetic-name erasure
in the stored widgets, and equal `externalFields`; the synthetic-name
counters and the synthetically-keyed `widgets` registry are not
constrained. -/
def StSim (s1 s2 : RSt) : Prop :=
  s1.rels = s2.rels ∧ eraseReg s1.fields = eraseReg s2.fields ∧
  eraseReg s1.buttons = eraseReg s2.buttons ∧ eraseReg s1.nrels = eraseReg s2.nrels ∧
  s1.exts = s2.exts

/-- Agreement of two pre-assigned names handed to `reformatWidget`: both
absent, or both present and either equal or both synthetic. -/
def nameSim (f1 f2 : Option String) : Prop :=
  match f1, f2 with
  | none, none => True
  | some a, some b => a = b ∨ (strStartsWith a ":" = true ∧ strStartsWith b ":" = true)
  | _, _ => False

/-- The normalization phase of `parseForm` (lines 656-673): the root
widget (`json.ui.widget`) is reformatted starting from zeroed counters and
empty registries; the result is the normalized tree plus the final
registry state. -/
def parseFormTree (pf : List String) (mp : String) (root : Widget) : Widget × RSt :=
  match reformatWidget pf mp none root initRSt with
  | (w', _, s') => (w', s')

end QtDesignerForm

section ClaimTheorems

open MapInfoTooltip QtDesignerForm

/-- C1, counterexample: without a registered preprocessor, `parseForm`
commits unconditionally, so after the newer request (id 2) has completed
(formData 20), the older in-flight response (id 1, payload 10) overwrites
the committed render state instead of being dropped. -/
theorem C1_counterexample :
    (runFormEvents false [.respArrived 20 2] defaultFormState).formData = some 20 ∧
    (runFormEvents false [.respArrived 20 2, .respArrived 10 1] defaultFormState).formData = some 10 ∧
    (runFormEvents false [.respArrived 20 2, .respArrived 10 1] defaultFormState).formData ≠ some 20 := by
  decide

/-- C1, amended: the last-request-wins guard exists only on the
preprocessor path — a preprocessor callback whose request identifier no
longer matches the most recently recorded `loadingReqId` leaves the
component state (in particular the committed `formData`) unchanged;
without a preprocessor the commit is unconditional (last response to
arrive wins). -/
theorem C1_preproc_guard (s : FormLoadState) (d r : Nat)
    (h : s.loadingReqId ≠ some r) :
    preprocDone d r s = s := by
  simp [preprocDone, h]

/-- Witness for `C1_preproc_guard`: after a newer parse (id 2) has
started and its preprocessor callback has committed, a stale callback
(id 1) is dropped. -/
theorem C1_preproc_guard_witness :
    (runFormEvents true [.respArrived 20 2, .preprocReturned 21 2] defaultFormState).loadingReqId ≠ some 1 ∧
    preprocDone 10 1 (runFormEvents true [.respArrived 20 2, .preprocReturned 21 2] defaultFormState) =
      runFormEvents true [.respArrived 20 2, .preprocReturned 21 2] defaultFormState :=
  ⟨by decide, C1_preproc_guard _ 10 1 (by decide)⟩

/-- C3, counterexample: a right-click at a new pixel records the clicked
point and resets the elevation, but does **not** clear the extra map-info
rows — `componentDidUpdate` only sets `{point, elevation: null}`, so the
previous `extraInfo` survives until a new map-info response arrives. -/
theorem C3_counterexample :
    (componentDidUpdate true "EPSG:3857" true true
        (some ⟨(0, 0), (100, 200), 2⟩)
        ⟨some ⟨(0, 0), (100, 200), 2⟩, some 5, none, some [("k", "v")]⟩
        (some ⟨(1, 1), (110, 210), 2⟩)).1.point = some ⟨(1, 1), (110, 210), 2⟩ ∧
    (componentDidUpdate true "EPSG:3857" true true
        (some ⟨(0, 0), (100, 200), 2⟩)
        ⟨some ⟨(0, 0), (100, 200), 2⟩, some 5, none, some [("k", "v")]⟩
        (some ⟨(1, 1), (110, 210), 2⟩)).1.extraInfo = some [("k", "v")] ∧
    (some [("k", "v")] : Option (List (String × String))) ≠ none := by
  decide

/-- C3, amended: on a right-click at a new pixel the tooltip records the
clicked point and resets the elevation (retaining the previous
`extraInfo`), issuing one fetch per configured service; on a right-click
with identical pixel coordinates nothing changes and no fetch is issued. -/
theorem C3_new_pixel_click (proj : String) (elevSvc mapSvc : Bool)
    (op np : ClickPoint) (s : TooltipState) (hb : np.button = 2) :
    (op.pixel ≠ np.pixel →
      componentDidUpdate true proj elevSvc mapSvc (some op) s (some np) =
        ({ s with point := some np, elevation := none },
          (if elevSvc then [ServiceRequest.getElevation np.coordinate proj] else []) ++
          (if mapSvc then [ServiceRequest.getMapInfo np.coordinate proj] else []))) ∧
    (op.pixel = np.pixel →
      componentDidUpdate true proj elevSvc mapSvc (some op) s (some np) = (s, [])) := by
  constructor
  · intro hne
    have hpx : (decide (op.pixel.1 ≠ np.pixel.1) || decide (op.pixel.2 ≠ np.pixel.2)) = true := by
      by_contra hcon
      simp only [Bool.or_eq_true, decide_eq_true_eq, not_or] at hcon
      push_neg at hcon
      exact hne (Prod.ext_iff.mpr ⟨hcon.1, hcon.2⟩)
    simp only [componentDidUpdate, hb, hpx]
    simp
  · intro heq
    simp only [componentDidUpdate, hb, heq]
    simp

/-- Witness for `C3_new_pixel_click`. -/
theorem C3_new_pixel_click_witness :
    ((⟨(1, 1), (110, 210), 2⟩ : ClickPoint).button = 2 ∧
      ((⟨(0, 0), (100, 200), 2⟩ : ClickPoint).pixel ≠ (⟨(1, 1), (110, 210), 2⟩ : ClickPoint).pixel →
        componentDidUpdate true "EPSG:3857" true false
            (some ⟨(0, 0), (100, 200), 2⟩) initTooltipState (some ⟨(1, 1), (110, 210), 2⟩) =
          ({ initTooltipState with point := some ⟨(1, 1), (110, 210), 2⟩, elevation := none },
            (if true then [ServiceRequest.getElevation (110, 210) "EPSG:3857"] else []) ++
            (if false then [ServiceRequest.getMapInfo (110, 210) "EPSG:3857"] else []))) ∧
      ((⟨(0, 0), (100, 200), 2⟩ : ClickPoint).pixel = (⟨(1, 1), (110, 210), 2⟩ : ClickPoint).pixel →
        componentDidUpdate true "EPSG:3857" true false
            (some ⟨(0, 0), (100, 200), 2⟩) initTooltipState (some ⟨(1, 1), (110, 210), 2⟩) =
          (initTooltipState, []))) :=
  ⟨by decide, C3_new_pixel_click "EPSG:3857" true false _ _ initTooltipState (by decide)⟩

/-- C4, counterexample: the geometry-error branch of `buildErrMsg` appends
the mapped *array* to the string, so with two geometry errors the entries
are comma-joined (`", - "`), not newline-joined as the claim states. -/
theorem C4_counterexample :
    buildErrMsg ⟨"bad", [("a", "l"), ("b", "m")], [], []⟩ = "bad:\n - a at l, - b at m" ∧
    buildErrMsg ⟨"bad", [("a", "l"), ("b", "m")], [], []⟩ ≠ "bad:\n - a at l\n - b at m" := by
  decide

/-- C4, amended: `buildErrMsg` appends the data- and validation-error
lists newline-joined with `" - "` item prefixes, but the geometry-error
entries are comma-joined (JavaScript array stringification); in
particular, for error `"bad"` with `data_errors ["x","y"]` the message is
`"bad:\n - x\n - y"`. -/
theorem C4_errmsg (e : String) (gs : List (String × String)) (ds vs : List String)
    (hds : ds ≠ []) (hvs : vs ≠ []) :
    (buildErrMsg ⟨e, [], ds, []⟩ = e ++ ":\n - " ++ String.intercalate "\n - " ds) ∧
    (buildErrMsg ⟨e, [], [], vs⟩ = e ++ ":\n - " ++ String.intercalate "\n - " vs) ∧
    (gs ≠ [] → buildErrMsg ⟨e, gs, [], []⟩ =
      e ++ ":\n" ++ String.intercalate "," (gs.map (fun p => " - " ++ p.1 ++ " at " ++ p.2))) ∧
    buildErrMsg ⟨"bad", [], ["x", "y"], []⟩ = "bad:\n - x\n - y" := by
  refine ⟨?_, ?_, ?_, by decide⟩
  · cases ds with
    | nil => exact absurd rfl hds
    | cons a t => simp [buildErrMsg]
  · cases vs with
    | nil => exact absurd rfl hvs
    | cons a t => simp [buildErrMsg]
  · intro hgs
    cases gs with
    | nil => exact absurd rfl hgs
    | cons a t => simp [buildErrMsg]

/-- Witness for `C4_errmsg`. -/
theorem C4_errmsg_witness :
    (["x", "y"] : List String) ≠ [] ∧ (["v"] : List String) ≠ [] ∧
    (buildErrMsg ⟨"bad", [], ["x", "y"], []⟩ =
      "bad" ++ ":\n - " ++ String.intercalate "\n - " ["x", "y"] ∧
     buildErrMsg ⟨"bad", [], [], ["v"]⟩ =
      "bad" ++ ":\n - " ++ String.intercalate "\n - " ["v"] ∧
     ([("a", "l")] : List (String × String)) ≠ [] →
       buildErrMsg ⟨"bad", [("a", "l")], [], []⟩ =
        "bad" ++ ":\n" ++
          String.intercalate "," ([("a", "l")].map (fun p => " - " ++ p.1 ++ " at " ++ p.2)) ∧
     buildErrMsg ⟨"bad", [], ["x", "y"], []⟩ = "bad:\n - x\n - y") :=
  ⟨by decide, by decide, by
    have h := C4_errmsg "bad" [("a", "l")] ["x", "y"] ["v"] (by decide) (by decide)
    exact fun _ => ⟨h.2.2.1 (by decide), h.2.2.2⟩⟩

/-- Reading back the index written by the sparse-array write `setA`. -/
theorem setA_getD_self (i : Nat) : ∀ (l : List (Option String)) (v : Option String),
    (setA l i v).getD i none = v := by
  induction i with
  | zero =>
    intro l v
    cases l <;> simp [setA]
  | succ n ih =>
    intro l v
    cases l with
    | nil => simpa [setA] using ih [] v
    | cons x xs => simpa [setA] using ih xs v

/-- `setA` leaves every other index unchanged. -/
theorem setA_getD_ne (i : Nat) : ∀ (l : List (Option String)) (j : Nat) (v : Option String),
    j ≠ i → (setA l i v).getD j none = l.getD j none := by
  induction i with
  | zero =>
    intro l j v hj
    cases l <;> cases j <;> simp_all [setA]
  | succ n ih =>
    intro l j v hj
    cases l with
    | nil =>
      cases j with
      | zero => simp [setA]
      | succ k =>
        have hkn : k ≠ n := fun h => hj (by omega)
        show (none :: setA [] n v).getD (k + 1) none = ([] : List (Option String)).getD (k + 1) none
        rw [List.getD_cons_succ, ih [] k v hkn]
        rfl
    | cons x xs =>
      cases j with
      | zero => simp [setA]
      | succ k =>
        have hkn : k ≠ n := fun h => hj (by omega)
        show (x :: setA xs n v).getD (k + 1) none = (x :: xs).getD (k + 1) none
        rw [List.getD_cons_succ, List.getD_cons_succ, ih xs k v hkn]

/-- Characterization of the `computeLayoutColumns` loop when a horizontal
spacer is present in the item list (`hasSpacer = true`): the widget branch
is disabled, so a column entry is `"auto"` exactly when it was already
`"auto"` or some remaining item is a horizontal spacer targeting that
column; entries are only ever `"auto"` or holes; and `hasAuto` ends up
true iff it was true or some remaining item is a horizontal spacer. -/
theorem clcStep_spacer_char (rest : List Item) :
    ∀ (idx : Nat) (cols : List (Option String)) (hasAuto : Bool),
    (∀ c, cols.getD c none = some "auto" ∨ cols.getD c none = none) →
    ((∀ c, (clcStep true false rest idx cols hasAuto).1.getD c none = some "auto" ↔
        (cols.getD c none = some "auto" ∨ ∃ it ∈ rest, isHSpacer it = true ∧ it.col.getD 0 = c)) ∧
     (∀ c, (clcStep true false rest idx cols hasAuto).1.getD c none = some "auto" ∨
        (clcStep true false rest idx cols hasAuto).1.getD c none = none) ∧
     (clcStep true false rest idx cols hasAuto).2 = (hasAuto || rest.any isHSpacer)) := by
  induction rest with
  | nil =>
    intro idx cols hasAuto hinv
    refine ⟨fun c => ?_, hinv, by simp [clcStep]⟩
    simp [clcStep]
  | cons it rest ih =>
    intro idx cols hasAuto hinv
    by_cases hsp : isHSpacer it = true
    · have hred : clcStep true false (it :: rest) idx cols hasAuto =
          clcStep true false rest (idx + 1) (setA cols (it.col.getD 0) (some "auto")) true := by
        simp [clcStep, hsp]
      rw [hred]
      have hinv' : ∀ c, (setA cols (it.col.getD 0) (some "auto")).getD c none = some "auto" ∨
          (setA cols (it.col.getD 0) (some "auto")).getD c none = none := by
        intro c
        by_cases hc : c = it.col.getD 0
        · subst hc; left; exact setA_getD_self _ _ _
        · rw [setA_getD_ne _ _ _ _ hc]; exact hinv c
      obtain ⟨ih1, ih2, ih3⟩ := ih (idx + 1) (setA cols (it.col.getD 0) (some "auto")) true hinv'
      refine ⟨fun c => ?_, ih2, ?_⟩
      · rw [ih1 c]
        constructor
        · rintro (hset | hrest)
          · by_cases hc : c = it.col.getD 0
            · exact Or.inr ⟨it, List.mem_cons_self _ _, hsp, hc.symm⟩
            · rw [setA_getD_ne _ _ _ _ hc] at hset
              exact Or.inl hset
          · obtain ⟨w, hw, hw1, hw2⟩ := hrest
            exact Or.inr ⟨w, List.mem_cons_of_mem _ hw, hw1, hw2⟩
        · rintro (hold | ⟨w, hw, hw1, hw2⟩)
          · by_cases hc : c = it.col.getD 0
            · subst hc; exact Or.inl (setA_getD_self _ _ _)
            · rw [setA_getD_ne _ _ _ _ hc]; exact Or.inl hold
          · rcases List.mem_cons.mp hw with rfl | hw'
            · subst hw2; exact Or.inl (setA_getD_self _ _ _)
            · exact Or.inr ⟨w, hw', hw1, hw2⟩
      · rw [ih3]; simp [hsp]
    · have hsp' : isHSpacer it = false := by simpa using hsp
      have hred : clcStep true false (it :: rest) idx cols hasAuto =
          clcStep true false rest (idx + 1)
            (setA cols (it.col.getD 0) (cols.getD (it.col.getD 0) none)) hasAuto := by
        simp [clcStep, hsp']
      rw [hred]
      have heq : ∀ c, (setA cols (it.col.getD 0) (cols.getD (it.col.getD 0) none)).getD c none =
          cols.getD c none := by
        intro c
        by_cases hc : c = it.col.getD 0
        · subst hc; exact setA_getD_self _ _ _
        · exact setA_getD_ne _ _ _ _ hc
      have hinv' : ∀ c, (setA cols (it.col.getD 0) (cols.getD (it.col.getD 0) none)).getD c none = some "auto" ∨
          (setA cols (it.col.getD 0) (cols.getD (it.col.getD 0) none)).getD c none = none := by
        intro c; rw [heq]; exact hinv c
      obtain ⟨ih1, ih2, ih3⟩ := ih (idx + 1) _ hasAuto hinv'
      refine ⟨fun c => ?_, ih2, ?_⟩
      · rw [ih1 c, heq]
        constructor
        · rintro (hold | ⟨w, hw, hw1, hw2⟩)
          · exact Or.inl hold
          · exact Or.inr ⟨w, List.mem_cons_of_mem _ hw, hw1, hw2⟩
        · rintro (hold | ⟨w, hw, hw1, hw2⟩)
          · exact Or.inl hold
          · rcases List.mem_cons.mp hw with rfl | hw'
            · rw [hsp'] at hw1; exact absurd hw1 (by simp)
            · exact Or.inr ⟨w, hw', hw1, hw2⟩
      · rw [ih3]; simp [hsp']

/-- C2, counterexample: a grid layout containing a horizontal spacer (at
column 0) and a `QLineEdit` widget (at column 1) resolves to
`["auto", "fit-content(50%)"]` — with a horizontal spacer present, the
widget-based `auto` rule is disabled (`!hasSpacer` guard), so not every
column resolves to `auto`. -/
theorem C2_counterexample :
    computeLayoutColumns
      [ .ispacer (some 0) (some 0) none none (some [("orientation", "Qt::Horizontal")]),
        .iwidget (some 0) (some 1) none none (.mk "QLineEdit" (some "field1") none none [] none []) ]
      false = ["auto", "fit-content(50%)"] ∧
    computeLayoutColumns
      [ .ispacer (some 0) (some 0) none none (some [("orientation", "Qt::Horizontal")]),
        .iwidget (some 0) (some 1) none none (.mk "QLineEdit" (some "field1") none none [] none []) ]
      false ≠ ["auto", "auto"] := by
  constructor
  · rfl
  · intro h
    exact absurd (congrArg (fun l => l.getD 1 "") h) (by decide)

/-- C2, amended: for every grid/form item list containing a horizontal
spacer, exactly the columns containing a horizontal spacer resolve to
`"auto"`; every other column resolves to the `fit-content` share of
`100%/columnCount` (the widget-class rule is disabled in the presence of
a spacer). -/
theorem C2_columns_with_spacer (items : List Item) (hs : items.any isHSpacer = true)
    (c : Nat) (hc : c < (computeLayoutColumns items false).length) :
    (computeLayoutColumns items false).getD c "" =
      if items.any (fun it => isHSpacer it && (it.col.getD 0 == c)) then "auto"
      else "fit-content(" ++ toString (jsRoundPct (computeLayoutColumns items false).length) ++ "%)" := by
  rcases hr : clcStep true false items 0 [] false with ⟨colsF, hasAutoF⟩
  have hcompute : computeLayoutColumns items false =
      colsF.map (fun e => if hasAutoF = true then
        (match e with
         | some st => st
         | none => "fit-content(" ++ toString (jsRoundPct colsF.length) ++ "%)")
        else "auto") := by
    simp only [computeLayoutColumns, hs, hr]
  obtain ⟨h1, h2, h3⟩ := clcStep_spacer_char items 0 [] false (by intro d; right; rfl)
  rw [hr] at h1 h2 h3
  simp only [hs, Bool.false_or] at h3
  have hlen : c < colsF.length := by
    rw [hcompute] at hc
    simpa using hc
  have hgoal : (computeLayoutColumns items false).getD c "" =
      (if hasAutoF = true then
        (match colsF.getD c none with
         | some st => st
         | none => "fit-content(" ++ toString (jsRoundPct colsF.length) ++ "%)")
        else "auto") := by
    rw [hcompute, List.getD_eq_getElem _ _ (by simpa using hlen), List.getElem_map,
      List.getD_eq_getElem colsF none hlen]
  rw [hgoal]
  have hlen2 : (computeLayoutColumns items false).length = colsF.length := by
    rw [hcompute]; simp
  rw [hlen2, h3]
  by_cases hp : items.any (fun it => isHSpacer it && (it.col.getD 0 == c)) = true
  · obtain ⟨it, hit, hcond⟩ := List.any_eq_true.mp hp
    rw [Bool.and_eq_true, beq_iff_eq] at hcond
    have hauto : colsF.getD c none = some "auto" := by
      rw [h1 c]
      exact Or.inr ⟨it, hit, hcond.1, hcond.2⟩
    rw [hauto, if_pos hp]
    rfl
  · have hnone : colsF.getD c none = none := by
      rcases h2 c with ha | hn
      · exfalso
        rw [h1 c] at ha
        rcases ha with hemp | ⟨it, hit, hsp2, hcol⟩
        · simp [List.getD] at hemp
        · exact hp (List.any_eq_true.mpr
            ⟨it, hit, by rw [Bool.and_eq_true, beq_iff_eq]; exact ⟨hsp2, hcol⟩⟩)
      · exact hn
    rw [hnone, if_neg hp]
    rfl

/-- Witness for `C2_columns_with_spacer`: the fit-content column of the
counterexample layout. -/
theorem C2_columns_with_spacer_witness :
    (([ .ispacer (some 0) (some 0) none none (some [("orientation", "Qt::Horizontal")]),
        .iwidget (some 0) (some 1) none none (.mk "QLineEdit" (some "field1") none none [] none []) ]
        : List Item).any isHSpacer = true ∧
      1 < (computeLayoutColumns
        [ .ispacer (some 0) (some 0) none none (some [("orientation", "Qt::Horizontal")]),
          .iwidget (some 0) (some 1) none none (.mk "QLineEdit" (some "field1") none none [] none []) ]
        false).length) ∧
    (computeLayoutColumns
        [ .ispacer (some 0) (some 0) none none (some [("orientation", "Qt::Horizontal")]),
          .iwidget (some 0) (some 1) none none (.mk "QLineEdit" (some "field1") none none [] none []) ]
        false).getD 1 "" =
      if ([ .ispacer (some 0) (some 0) none none (some [("orientation", "Qt::Horizontal")]),
            .iwidget (some 0) (some 1) none none (.mk "QLineEdit" (some "field1") none none [] none []) ]
          : List Item).any (fun it => isHSpacer it && (it.col.getD 0 == 1)) then "auto"
      else "fit-content(" ++ toString (jsRoundPct (computeLayoutColumns
        [ .ispacer (some 0) (some 0) none none (some [("orientation", "Qt::Horizontal")]),
          .iwidget (some 0) (some 1) none none (.mk "QLineEdit" (some "field1") none none [] none []) ]
        false).length) ++ "%)" :=
  ⟨⟨by decide, by decide⟩, C2_columns_with_spacer _ (by decide) 1 (by decide)⟩

/-- A string whose first character is `':'` starts with `":"`. -/
theorem strStartsWith_append_colon (pre s : String) (hp : pre.data.head? = some ':') :
    strStartsWith (pre ++ s) ":" = true := by
  unfold strStartsWith
  rw [String.data_append]
  cases hd : pre.data with
  | nil => rw [hd] at hp; cases hp
  | cons c cs =>
    rw [hd] at hp
    have hc : c = ':' := by injection hp
    subst hc
    simp [List.isPrefixOf]

/-- Appending to a non-empty prefix yields a non-empty string. -/
theorem nonempty_of_colon_append (pre s : String) (hp : pre.data ≠ []) : pre ++ s ≠ "" := by
  intro h
  have hdata := congrArg String.data h
  rw [String.data_append] at hdata
  exact hp (List.append_eq_nil.mp hdata).1

/-- The name chosen by `nextWName` is never empty (forced names being
non-empty, XML names being kept only when non-empty, and synthetic names
having a non-empty prefix). -/
theorem nextWName_ne_empty (f nm : Option String) (s : RSt)
    (hf : ∀ x, f = some x → x ≠ "") : (nextWName f nm s).1 ≠ "" := by
  cases f with
  | some a => exact hf a rfl
  | none =>
    cases nm with
    | none => exact nonempty_of_colon_append _ _ (by decide)
    | some n =>
      by_cases hn : n = ""
      · simp only [nextWName, hn, if_pos]
        exact nonempty_of_colon_append _ _ (by decide)
      · simp only [nextWName, if_neg hn]
        exact hn

/-- The joint normalization invariant, proved by strong induction on the
node size for all entry points of the `reformatWidget`/`reformatLayout`
mutual recursion: every reformatted tree satisfies the `goodW` family of
invariants (non-null property/attribute maps, non-empty names at every
reachable widget). -/
theorem reformat_good (pf : List String) (mp : String) : ∀ N : Nat,
    (∀ (f : Option String) (w : Widget) (s : RSt), sizeOf w ≤ N →
      (∀ x, f = some x → x ≠ "") → goodW (reformatWidget pf mp f w s).1 = true) ∧
    (∀ (ws : List Widget) (s : RSt), sizeOf ws ≤ N →
      goodWList (reformatWidgetItems pf mp ws s).1 = true) ∧
    (∀ (ws : List Widget) (s : RSt), sizeOf ws ≤ N →
      goodWList (reformatForcedChildren pf mp ws s).1 = true) ∧
    (∀ (ol : Option Layout) (s : RSt), sizeOf ol ≤ N →
      goodOptL (reformatOptLayout pf mp ol s).1 = true) ∧
    (∀ (l : Layout) (s : RSt), sizeOf l ≤ N →
      goodL (reformatLayout pf mp l s).1 = true) ∧
    (∀ (its : List Item) (s : RSt), sizeOf its ≤ N →
      goodIList (reformatItems pf mp its s).1 = true) ∧
    (∀ (it : Item) (s : RSt), sizeOf it ≤ N →
      goodI (reformatItem pf mp it s).1 = true) := by
  intro N
  induction N using Nat.strong_induction_on with
  | _ N IH =>
  refine ⟨?_, ?_, ?_, ?_, ?_, ?_, ?_⟩
  · intro f w s hN hf
    cases w with
    | mk wc nm props attrs items wlay ch =>
      have hszItems : sizeOf items < sizeOf (Widget.mk wc nm props attrs items wlay ch) := by
        simp only [Widget.mk.sizeOf_spec]; omega
      have hszLay : sizeOf wlay < sizeOf (Widget.mk wc nm props attrs items wlay ch) := by
        simp only [Widget.mk.sizeOf_spec]; omega
      have hszCh : sizeOf ch < sizeOf (Widget.mk wc nm props attrs items wlay ch) := by
        simp only [Widget.mk.sizeOf_spec]; omega
      rcases h1 : reformatWidgetItems pf mp items s with ⟨items', vf1, s1⟩
      rcases h2 : nextWName f nm s1 with ⟨name', s2⟩
      rcases h3 : reformatOptLayout pf mp wlay s2 with ⟨wlay', vf2, s3⟩
      rcases h4 : reformatForcedChildren pf mp ch s3 with ⟨ch', vf3, s4⟩
      have g1 : goodWList items' = true := by
        have hh := (IH (sizeOf items) (lt_of_lt_of_le hszItems hN)).2.1 items s (le_refl _)
        rw [h1] at hh; exact hh
      have g2 : goodOptL wlay' = true := by
        have hh := (IH (sizeOf wlay) (lt_of_lt_of_le hszLay hN)).2.2.2.1 wlay s2 (le_refl _)
        rw [h3] at hh; exact hh
      have g3 : goodWList ch' = true := by
        have hh := (IH (sizeOf ch) (lt_of_lt_of_le hszCh hN)).2.2.1 ch s3 (le_refl _)
        rw [h4] at hh; exact hh
      have gname : name' ≠ "" := by
        have hh := nextWName_ne_empty f nm s1 hf
        rw [h2] at hh; exact hh
      simp only [reformatWidget, h1, h2, h3, h4]
      simp [goodW, g1, g2, g3, gname]
  · intro ws s hN
    cases ws with
    | nil => simp [reformatWidgetItems, goodWList]
    | cons w rest =>
      have hszW : sizeOf w < sizeOf (w :: rest) := by
        simp only [List.cons.sizeOf_spec]; omega
      have hszRest : sizeOf rest < sizeOf (w :: rest) := by
        simp only [List.cons.sizeOf_spec]; omega
      rcases h1 : reformatWidget pf mp none w s with ⟨w', v, s'⟩
      rcases h2 : reformatWidgetItems pf mp rest s' with ⟨rest', v2, s''⟩
      have g1 : goodW w' = true := by
        have hh := (IH (sizeOf w) (lt_of_lt_of_le hszW hN)).1 none w s (le_refl _)
          (fun x hx => by cases hx)
        rw [h1] at hh; exact hh
      have g2 : goodWList rest' = true := by
        have hh := (IH (sizeOf rest) (lt_of_lt_of_le hszRest hN)).2.1 rest s' (le_refl _)
        rw [h2] at hh; exact hh
      simp only [reformatWidgetItems, h1, h2]
      simp [goodWList, g1, g2]
  · intro ws s hN
    cases ws with
    | nil => simp [reformatForcedChildren, goodWList]
    | cons w rest =>
      have hszW : sizeOf w < sizeOf (w :: rest) := by
        simp only [List.cons.sizeOf_spec]; omega
      have hszRest : sizeOf rest < sizeOf (w :: rest) := by
        simp only [List.cons.sizeOf_spec]; omega
      rcases hf1 : freshWName s with ⟨fname, sF⟩
      have hfname : fname = ":widget_" ++ toString s.wc := by
        simp only [freshWName] at hf1
        exact (Prod.mk.injEq _ _ _ _ ▸ hf1 : _ ∧ _).1.symm
      rcases h1 : reformatWidget pf mp (some fname) w sF with ⟨w', v, s'⟩
      rcases h2 : reformatForcedChildren pf mp rest s' with ⟨rest', v2, s''⟩
      have g1 : goodW w' = true := by
        have hh := (IH (sizeOf w) (lt_of_lt_of_le hszW hN)).1 (some fname) w sF (le_refl _)
          (fun x hx => by
            cases hx
            rw [hfname]
            exact nonempty_of_colon_append _ _ (by decide))
        rw [h1] at hh; exact hh
      have g2 : goodWList rest' = true := by
        have hh := (IH (sizeOf rest) (lt_of_lt_of_le hszRest hN)).2.2.1 rest s' (le_refl _)
        rw [h2] at hh; exact hh
      simp only [reformatForcedChildren, hf1, h1, h2]
      simp [goodWList, g1, g2]
  · intro ol s hN
    cases ol with
    | none => simp [reformatOptLayout, goodOptL]
    | some l =>
      have hszL : sizeOf l < sizeOf (some l : Option Layout) := by
        simp only [Option.some.sizeOf_spec]; omega
      rcases h1 : reformatLayout pf mp l s with ⟨l', v, s'⟩
      have g1 : goodL l' = true := by
        have hh := (IH (sizeOf l) (lt_of_lt_of_le hszL hN)).2.2.2.2.1 l s (le_refl _)
        rw [h1] at hh; exact hh
      simp only [reformatOptLayout, h1]
      simp [goodOptL, g1]
  · intro l s hN
    cases l with
    | mk lc nm items vf0 =>
      have hszItems : sizeOf items < sizeOf (Layout.mk lc nm items vf0) := by
        simp only [Layout.mk.sizeOf_spec]; omega
      rcases h1 : nextLName nm s with ⟨name', s1⟩
      rcases h2 : reformatItems pf mp items s1 with ⟨items', v, s2⟩
      have g1 : goodIList items' = true := by
        have hh := (IH (sizeOf items) (lt_of_lt_of_le hszItems hN)).2.2.2.2.2.1 items s1 (le_refl _)
        rw [h2] at hh; exact hh
      simp only [reformatLayout, h1, h2]
      simp [goodL, g1]
  · intro its s hN
    cases its with
    | nil => simp [reformatItems, goodIList]
    | cons it rest =>
      have hszIt : sizeOf it < sizeOf (it :: rest) := by
        simp only [List.cons.sizeOf_spec]; omega
      have hszRest : sizeOf rest < sizeOf (it :: rest) := by
        simp only [List.cons.sizeOf_spec]; omega
      rcases h1 : reformatItem pf mp it s with ⟨it', v, s'⟩
      rcases h2 : reformatItems pf mp rest s' with ⟨rest', v2, s''⟩
      have g1 : goodI it' = true := by
        have hh := (IH (sizeOf it) (lt_of_lt_of_le hszIt hN)).2.2.2.2.2.2 it s (le_refl _)
        rw [h1] at hh; exact hh
      have g2 : goodIList rest' = true := by
        have hh := (IH (sizeOf rest) (lt_of_lt_of_le hszRest hN)).2.2.2.2.2.1 rest s' (le_refl _)
        rw [h2] at hh; exact hh
      simp only [reformatItems, h1, h2]
      simp [goodIList, g1, g2]
  · intro it s hN
    cases it with
    | inone => simp [reformatItem, goodI]
    | ispacer r c rs cs props => simp [reformatItem, goodI]
    | iwidget r c rs cs w =>
      have hszW : sizeOf w < sizeOf (Item.iwidget r c rs cs w) := by
        simp only [Item.iwidget.sizeOf_spec]; omega
      rcases h1 : reformatWidget pf mp none w s with ⟨w', v, s'⟩
      have g1 : goodW w' = true := by
        have hh := (IH (sizeOf w) (lt_of_lt_of_le hszW hN)).1 none w s (le_refl _)
          (fun x hx => by cases hx)
        rw [h1] at hh; exact hh
      simp only [reformatItem, h1]
      simp [goodI, g1]
    | ilayout r c rs cs l =>
      have hszL : sizeOf l < sizeOf (Item.ilayout r c rs cs l) := by
        simp only [Item.ilayout.sizeOf_spec]; omega
      rcases h1 : reformatLayout pf mp l s with ⟨l', v, s'⟩
      have g1 : goodL l' = true := by
        have hh := (IH (sizeOf l) (lt_of_lt_of_le hszL hN)).2.2.2.2.1 l s (le_refl _)
        rw [h1] at hh; exact hh
      simp only [reformatItem, h1]
      simp [goodI, g1]

/-- C8: after normalization completes, every widget node reachable in the
reformatted tree has a non-null property map, a non-null attribute map and
a non-empty name (synthetic names being generated from the per-parse
counters when the source XML supplies none). -/
theorem C8_normalization_invariant (pf : List String) (mp : String) (root : Widget) :
    goodW (parseFormTree pf mp root).1 = true := by
  have h := (reformat_good pf mp (sizeOf root)).1 none root initRSt (le_refl _)
    (fun x hx => by cases hx)
  rcases hr : reformatWidget pf mp none root initRSt with ⟨w', vf, s'⟩
  rw [hr] at h
  simp only [parseFormTree, hr]
  exact h

/-- C5, counterexample: for a widget named `kvrel__a__b__c__d` the
relation key passed to the combo field is `mapPrefix + "b:c:d"`, not
`"b:c:d"` — with the map prefix `"map01."` the claim's expected value is
not produced. -/
theorem C5_counterexample :
    kvrelComboInfo "map01." "kvrel__a__b__c__d" = some ("a", "map01.b:c:d") ∧
    kvrelComboInfo "map01." "kvrel__a__b__c__d" ≠ some ("a", "b:c:d") := by
  decide

/-- C5, amended: for every map prefix, a combo-box widget named
`kvrel__a__b__c__d` derives field id `"a"` and lookup relation key
`mapPrefix ++ "b:c:d"`. -/
theorem C5_kvrel_dispatch (mapPrefix : String) :
    kvrelComboInfo mapPrefix "kvrel__a__b__c__d" = some ("a", mapPrefix ++ "b:c:d") := by
  have h1 : strSplitDU "kvrel__a__b__c__d" = ["kvrel", "a", "b", "c", "d"] := by decide
  simp only [kvrelComboInfo, h1]
  norm_num
  rw [String.append_assoc, String.append_assoc, String.append_assoc, String.append_assoc]
  exact ⟨by decide, by congr 1⟩

/-- C6: for every map prefix, a widget named
`nrel__t__fk__sort__noreorder` yields a relation-table descriptor keyed by
`mapPrefix ++ "t"` recording foreign key `"fk"`, sort column `"sort"` and
a truthy `noreorder` value (reordering disabled); with the optional tokens
absent (`nrel__t__fk`) the sort column is null and `noreorder` is falsy
(reordering not disabled). -/
theorem C6_nrel_descriptor (mapPrefix : String) :
    nrelRelationEntry mapPrefix "nrel__t__fk__sort__noreorder" =
      some (mapPrefix ++ "t",
        { fk := "fk", sortcol := some "sort", noreorder := some "noreorder" }) ∧
    nrelRelationEntry mapPrefix "nrel__t__fk" =
      some (mapPrefix ++ "t", { fk := "fk", sortcol := none, noreorder := none }) := by
  have h1 : strSplitDU "nrel__t__fk__sort__noreorder" = ["nrel", "t", "fk", "sort", "noreorder"] := by
    decide
  have h2 : strSplitDU "nrel__t__fk" = ["nrel", "t", "fk"] := by decide
  constructor
  · simp only [nrelRelationEntry, h1]
    norm_num
    decide
  · simp only [nrelRelationEntry, h2]
    norm_num

/-- C9, counterexample: the stale elevation does survive `clear`, but it
does not survive "into the next popup": the very update that opens the
next popup (a right-click at a new pixel) resets the elevation to null
before any new elevation response arrives. -/
theorem C9_counterexample :
    (clear ⟨some ⟨(0, 0), (100, 200), 2⟩, some 5, none, some [("k", "v")]⟩).elevation = some 5 ∧
    (componentDidUpdate true "EPSG:3857" true true
        (some ⟨(0, 0), (100, 200), 2⟩)
        (clear ⟨some ⟨(0, 0), (100, 200), 2⟩, some 5, none, some [("k", "v")]⟩)
        (some ⟨(1, 1), (110, 210), 2⟩)).1.point = some ⟨(1, 1), (110, 210), 2⟩ ∧
    (componentDidUpdate true "EPSG:3857" true true
        (some ⟨(0, 0), (100, 200), 2⟩)
        (clear ⟨some ⟨(0, 0), (100, 200), 2⟩, some 5, none, some [("k", "v")]⟩)
        (some ⟨(1, 1), (110, 210), 2⟩)).1.elevation = none := by
  decide

/-- C9, amended: `clear` sets `point` and `extraInfo` to null and writes
the unrelated `height` field, leaving the `elevation` state field
unchanged; the surviving value persists in state after popup dismissal,
but the right-click that opens the next popup resets `elevation` to null
(so the stale value is never displayed in the next popup). -/
theorem C9_clear_frame (s : TooltipState) (proj : String) (esvc msvc : Bool)
    (op np : ClickPoint) (hb : np.button = 2) (hpx : op.pixel ≠ np.pixel) :
    (clear s).elevation = s.elevation ∧
    (clear s).point = none ∧
    (clear s).extraInfo = none ∧
    (clear s).height = none ∧
    (componentDidUpdate true proj esvc msvc (some op) (clear s) (some np)).1.elevation = none := by
  refine ⟨rfl, rfl, rfl, rfl, ?_⟩
  have h := (C3_new_pixel_click proj esvc msvc op np (clear s) hb).1 hpx
  rw [h]

/-- Witness for `C9_clear_frame`. -/
theorem C9_clear_frame_witness :
    ((⟨(1, 1), (110, 210), 2⟩ : ClickPoint).button = 2 ∧
      (⟨(0, 0), (100, 200), 2⟩ : ClickPoint).pixel ≠ (⟨(1, 1), (110, 210), 2⟩ : ClickPoint).pixel) ∧
    ((clear initTooltipState).elevation = initTooltipState.elevation ∧
      (clear initTooltipState).point = none ∧
      (clear initTooltipState).extraInfo = none ∧
      (clear initTooltipState).height = none ∧
      (componentDidUpdate true "EPSG:3857" true true
          (some ⟨(0, 0), (100, 200), 2⟩) (clear initTooltipState)
          (some ⟨(1, 1), (110, 210), 2⟩)).1.elevation = none) :=
  ⟨⟨by decide, by decide⟩,
    C9_clear_frame initTooltipState "EPSG:3857" true true _ _ (by decide) (by decide)⟩

/-- C10: a stored elevation of exactly `0` (in particular any service
response whose rounded value is zero) is JavaScript-falsy, so the popup's
info rows contain no elevation row; in general the elevation row is
rendered iff the stored elevation state value is truthy. -/
theorem C10_elevation_zero_hidden (p : ℕ) (e : ℚ) (s : TooltipState)
    (coordRows : List (String × String)) :
    (storedElevation p e = 0 →
      infoRows coordRows (applyElevationResponse p e s) = coordRows ++ s.extraInfo.getD []) ∧
    (truthyElev (applyElevationResponse p e s).elevation = true ↔ storedElevation p e ≠ 0) := by
  constructor
  · intro h
    simp only [infoRows, applyElevationResponse, h]
    cases hx : s.extraInfo <;> simp [hx]
  · simp only [truthyElev, applyElevationResponse]
    by_cases h : storedElevation p e = 0 <;> simp [h]

/-- Witness for `C10_elevation_zero_hidden`: a legitimate elevation of
exactly zero metres never produces an elevation row. -/
theorem C10_elevation_zero_hidden_witness :
    storedElevation 0 0 = 0 ∧
    infoRows [("A", "B")] (applyElevationResponse 0 0
        ⟨some ⟨(0, 0), (100, 200), 2⟩, none, none, some [("X", "Y")]⟩) =
      [("A", "B")] ++
        (⟨some ⟨(0, 0), (100, 200), 2⟩, none, none,
            some [("X", "Y")]⟩ : TooltipState).extraInfo.getD [] :=
  ⟨by norm_num [storedElevation, jsRound],
    (C10_elevation_zero_hidden 0 0 _ [("A", "B")]).1 (by norm_num [storedElevation, jsRound])⟩

end ClaimTheorems

section ClaimTheoremsB

open MapInfoTooltip QtDesignerForm


/-- The first segment produced by `splitDU` extends the accumulated prefix. -/
theorem splitDU_head_ex (cs acc : List Char) : ∃ t, (splitDU cs acc).head? = some (acc.reverse ++ t) := by
  induction cs, acc using splitDU.induct with
  | case1 acc => exact ⟨[], by simp [splitDU]⟩
  | case2 rest acc => exact ⟨[], by simp [splitDU]⟩
  | case3 c rest acc h ih =>
    obtain ⟨t, ht⟩ := ih
    have hred : splitDU (c :: rest) acc = splitDU rest (c :: acc) := by
      rw [splitDU.eq_def]
      split
      · rename_i heq1 heq2
        cases heq2
      · rename_i rest2 heq
        injection heq with h1 h2
        exact (h rest2 h1 h2).elim
      · rename_i c2 rest2 heq
        cases heq
        rfl
    refine ⟨[c] ++ t, ?_⟩
    rw [hred, ht]
    simp



/-- A string starting with `":"` starts with no other first character, in
particular with none of the grammar prefixes. -/
theorem colon_no_other (a p : String) (h : strStartsWith a ":" = true)
    (hp : p.data.head? ≠ some ':') (hp2 : p.data ≠ []) : strStartsWith a p = false := by
  unfold strStartsWith at h ⊢
  have hcolon : (":" : String).data = [':'] := rfl
  rw [hcolon] at h
  cases hd : a.data with
  | nil => rw [hd] at h; cases h
  | cons c cs =>
    rw [hd] at h
    simp [List.isPrefixOf] at h
    subst h
    cases hq : p.data with
    | nil => exact absurd hq hp2
    | cons q qs =>
      rw [hq] at hp
      have hqc : q ≠ ':' := by simpa using hp
      simp [List.isPrefixOf, hqc]

/-- Synthetic (colon-prefixed) names never occur among the field keys when
no field key starts with a colon. -/
theorem contains_false_of_colon (pf : List String) (hpf : ∀ k ∈ pf, strStartsWith k ":" = false)
    (a : String) (h : strStartsWith a ":" = true) : pf.contains a = false := by
  cases hcc : pf.contains a with
  | false => rfl
  | true =>
    have hmem : a ∈ pf := by simpa using hcc
    have hk := hpf a hmem
    rw [h] at hk
    cases hk

/-- Membership variant of `contains_false_of_colon`. -/
theorem not_mem_of_colon (pf : List String) (hpf : ∀ k ∈ pf, strStartsWith k ":" = false)
    (a : String) (h : strStartsWith a ":" = true) : ¬(a ∈ pf) := by
  intro hm
  have hk := hpf a hm
  rw [h] at hk
  cases hk

/-- Unfolding `splitDU` one character when that character is not an
underscore. -/
theorem splitDU_cons_ne (c : Char) (rest acc : List Char) (hc : c ≠ '_') :
    splitDU (c :: rest) acc = splitDU rest (c :: acc) := by
  rw [splitDU.eq_def]
  split
  · rename_i heq1 heq2
    cases heq2
  · rename_i rest2 heq
    injection heq with h1 h2
    exact (hc h1).elim
  · rename_i c2 rest2 heq
    injection heq with h1 h2
    subst h1
    subst h2
    rfl

/-- Splitting a colon-headed character list yields a colon-headed first
segment. -/
theorem splitDU_colon_first (t : List Char) :
    ∃ u, (splitDU (':' :: t) []).head? = some (':' :: u) := by
  rw [splitDU_cons_ne ':' t [] (by decide)]
  obtain ⟨u, hu⟩ := splitDU_head_ex t [':']
  exact ⟨u, by simpa using hu⟩

/-- A string starting with `":"` has a colon-headed character list. -/
theorem data_colon_of_starts (a : String) (h : strStartsWith a ":" = true) :
    ∃ t, a.data = ':' :: t := by
  unfold strStartsWith at h
  have hcolon : (":" : String).data = [':'] := rfl
  rw [hcolon] at h
  cases hd : a.data with
  | nil => rw [hd] at h; cases h
  | cons c cs =>
    rw [hd] at h
    simp [List.isPrefixOf] at h
    exact ⟨cs, by rw [h]⟩

/-- Synthetic names never produce a `relationTables` entry: their first
split segment starts with a colon, so it is not `"nrel"`. -/
theorem nrelEntry_colon_none (mp a : String) (h : strStartsWith a ":" = true) :
    nrelRelationEntry mp a = none := by
  obtain ⟨t, ht⟩ := data_colon_of_starts a h
  have hhead : ∃ u, (splitDU a.data []).head? = some (':' :: u) := by
    rw [ht]; exact splitDU_colon_first t
  obtain ⟨u, hu⟩ := hhead
  have hne : (strSplitDU a).getD 0 "" ≠ "nrel" := by
    unfold strSplitDU
    cases hsp : splitDU a.data [] with
    | nil => rw [hsp] at hu; cases hu
    | cons x xs =>
      rw [hsp] at hu
      have hx : x = ':' :: u := by
        simpa using hu
      subst hx
      intro hcontra
      have hdata := congrArg String.data hcontra
      simp only [List.map_cons, List.getD_cons_zero] at hdata
      cases hdata
  simp only [nrelRelationEntry]
  rw [if_neg (fun hcond => hne hcond.2)]



/-- Componentwise computation of `registerWidget`: the `relationTables`
map. -/
theorem registerWidget_rels (pf : List String) (mp : String) (n : String) (w : Widget) (s : RSt) :
    (registerWidget pf mp n w s).rels =
      (match nrelRelationEntry mp n with
       | some kd => objInsert s.rels kd.1 kd.2
       | none => s.rels) := by
  unfold registerWidget
  repeat' split
  all_goals simp

/-- Componentwise computation of `registerWidget`: the `externalFields`
registry. -/
theorem registerWidget_exts (pf : List String) (mp : String) (n : String) (w : Widget) (s : RSt) :
    (registerWidget pf mp n w s).exts =
      (if strStartsWith n "ext__" then objInsert s.exts (n.drop 5) "" else s.exts) := by
  unfold registerWidget
  repeat' split
  all_goals simp_all

/-- Componentwise computation of `registerWidget`: the `fields`
registry. -/
theorem registerWidget_fields (pf : List String) (mp : String) (n : String) (w : Widget) (s : RSt) :
    (registerWidget pf mp n w s).fields =
      (if pf.contains n then objInsert s.fields n w
       else if strStartsWith n "kvrel__" || strStartsWith n "img__" then
         (match (strSplitDU n)[1]? with
          | some p1 => if pf.contains p1 then objInsert s.fields p1 w else s.fields
          | none => s.fields)
       else s.fields) := by
  unfold registerWidget
  repeat' split
  all_goals simp_all

/-- Componentwise computation of `registerWidget`: the `buttons`
registry. -/
theorem registerWidget_buttons (pf : List String) (mp : String) (n : String) (w : Widget) (s : RSt) :
    (registerWidget pf mp n w s).buttons =
      (if pf.contains n then s.buttons
       else if strStartsWith n "kvrel__" || strStartsWith n "img__" then s.buttons
       else if strStartsWith n "btn__" then objInsert s.buttons ((strSplitDU n).getD 1 "") w
       else s.buttons) := by
  unfold registerWidget
  repeat' split
  all_goals simp_all

/-- Componentwise computation of `registerWidget`: the `nrels`
registry. -/
theorem registerWidget_nrels (pf : List String) (mp : String) (n : String) (w : Widget) (s : RSt) :
    (registerWidget pf mp n w s).nrels =
      (if pf.contains n then s.nrels
       else if strStartsWith n "kvrel__" || strStartsWith n "img__" then s.nrels
       else if strStartsWith n "btn__" then s.nrels
       else if strStartsWith n "nrel__" then objInsert s.nrels ((strSplitDU n).getD 1 "") w
       else s.nrels) := by
  unfold registerWidget
  repeat' split
  all_goals simp_all



/-- Erasure commutes with a registry insert. -/
theorem eraseReg_objInsert (m : List (String × Widget)) (k : String) (w : Widget) :
    eraseReg (objInsert m k w) = objInsert (eraseReg m) k (eraseW w) := by
  unfold objInsert eraseReg
  rw [List.any_map]
  have hcomp : ((fun p : String × Widget => p.1 == k) ∘ (fun p : String × Widget => (p.1, eraseW p.2))) =
      (fun p : String × Widget => p.1 == k) := rfl
  rw [hcomp]
  by_cases hany : m.any (fun p : String × Widget => p.1 == k) = true
  · rw [if_pos hany, if_pos hany, List.map_map, List.map_map]
    congr 1
    funext p
    by_cases hp : (p.1 == k) = true
    · have hpk : p.1 = k := by simpa using hp
      simp [hpk]
    · simp [Function.comp, hp]
  · rw [if_neg hany, if_neg hany, List.map_append]
    rfl

/-- Inserting erasure-equal widgets into erasure-equal registries keeps
them erasure-equal. -/
theorem eraseReg_insert_congr (m1 m2 : List (String × Widget)) (k : String) (w1 w2 : Widget)
    (hm : eraseReg m1 = eraseReg m2) (hw : eraseW w1 = eraseW w2) :
    eraseReg (objInsert m1 k w1) = eraseReg (objInsert m2 k w2) := by
  rw [eraseReg_objInsert, eraseReg_objInsert, hm, hw]

/-- The registration step preserves semantic agreement: with equal real
names the same registry entries are made (with erasure-equal values), and
with synthetic names on both sides no semantic registry is touched. -/
theorem registerWidget_sim (pf : List String) (mp : String)
    (hpf : ∀ k ∈ pf, strStartsWith k ":" = false)
    (n1 n2 : String) (w1 w2 : Widget) (s1 s2 : RSt)
    (hn : n1 = n2 ∨ (strStartsWith n1 ":" = true ∧ strStartsWith n2 ":" = true))
    (hw : eraseW w1 = eraseW w2) (hs : StSim s1 s2) :
    StSim (registerWidget pf mp n1 w1 s1) (registerWidget pf mp n2 w2 s2) := by
  obtain ⟨e1, e2, e3, e4, e5⟩ := hs
  rcases hn with rfl | ⟨hc1, hc2⟩
  · refine ⟨?_, ?_, ?_, ?_, ?_⟩
    · rw [registerWidget_rels, registerWidget_rels, e1]
    · rw [registerWidget_fields, registerWidget_fields]
      by_cases hcn : pf.contains n1 = true
      · rw [if_pos hcn, if_pos hcn]
        exact eraseReg_insert_congr _ _ _ _ _ e2 hw
      · rw [if_neg hcn, if_neg hcn]
        by_cases hkv : (strStartsWith n1 "kvrel__" || strStartsWith n1 "img__") = true
        · rw [if_pos hkv, if_pos hkv]
          cases hp1 : (strSplitDU n1)[1]? with
          | none => exact e2
          | some p1 =>
            show eraseReg (if pf.contains p1 = true then objInsert s1.fields p1 w1 else s1.fields) =
              eraseReg (if pf.contains p1 = true then objInsert s2.fields p1 w2 else s2.fields)
            by_cases hcp : pf.contains p1 = true
            · rw [if_pos hcp, if_pos hcp]
              exact eraseReg_insert_congr _ _ _ _ _ e2 hw
            · rw [if_neg hcp, if_neg hcp]
              exact e2
        · rw [if_neg hkv, if_neg hkv]
          exact e2
    · rw [registerWidget_buttons, registerWidget_buttons]
      by_cases hcn : pf.contains n1 = true
      · rw [if_pos hcn, if_pos hcn]; exact e3
      · rw [if_neg hcn, if_neg hcn]
        by_cases hkv : (strStartsWith n1 "kvrel__" || strStartsWith n1 "img__") = true
        · rw [if_pos hkv, if_pos hkv]; exact e3
        · rw [if_neg hkv, if_neg hkv]
          by_cases hbt : strStartsWith n1 "btn__" = true
          · rw [if_pos hbt, if_pos hbt]
            exact eraseReg_insert_congr _ _ _ _ _ e3 hw
          · rw [if_neg hbt, if_neg hbt]; exact e3
    · rw [registerWidget_nrels, registerWidget_nrels]
      by_cases hcn : pf.contains n1 = true
      · rw [if_pos hcn, if_pos hcn]; exact e4
      · rw [if_neg hcn, if_neg hcn]
        by_cases hkv : (strStartsWith n1 "kvrel__" || strStartsWith n1 "img__") = true
        · rw [if_pos hkv, if_pos hkv]; exact e4
        · rw [if_neg hkv, if_neg hkv]
          by_cases hbt : strStartsWith n1 "btn__" = true
          · rw [if_pos hbt, if_pos hbt]; exact e4
          · rw [if_neg hbt, if_neg hbt]
            by_cases hnr : strStartsWith n1 "nrel__" = true
            · rw [if_pos hnr, if_pos hnr]
              exact eraseReg_insert_congr _ _ _ _ _ e4 hw
            · rw [if_neg hnr, if_neg hnr]; exact e4
    · rw [registerWidget_exts, registerWidget_exts]
      by_cases hex : strStartsWith n1 "ext__" = true
      · rw [if_pos hex, if_pos hex, e5]
      · rw [if_neg hex, if_neg hex]; exact e5
  · have h1a : pf.contains n1 = false := contains_false_of_colon pf hpf n1 hc1
    have h1b : pf.contains n2 = false := contains_false_of_colon pf hpf n2 hc2
    have hkv1 : strStartsWith n1 "kvrel__" = false := colon_no_other _ _ hc1 (by decide) (by decide)
    have hkv2 : strStartsWith n2 "kvrel__" = false := colon_no_other _ _ hc2 (by decide) (by decide)
    have him1 : strStartsWith n1 "img__" = false := colon_no_other _ _ hc1 (by decide) (by decide)
    have him2 : strStartsWith n2 "img__" = false := colon_no_other _ _ hc2 (by decide) (by decide)
    have hbt1 : strStartsWith n1 "btn__" = false := colon_no_other _ _ hc1 (by decide) (by decide)
    have hbt2 : strStartsWith n2 "btn__" = false := colon_no_other _ _ hc2 (by decide) (by decide)
    have hnr1 : strStartsWith n1 "nrel__" = false := colon_no_other _ _ hc1 (by decide) (by decide)
    have hnr2 : strStartsWith n2 "nrel__" = false := colon_no_other _ _ hc2 (by decide) (by decide)
    have hex1 : strStartsWith n1 "ext__" = false := colon_no_other _ _ hc1 (by decide) (by decide)
    have hex2 : strStartsWith n2 "ext__" = false := colon_no_other _ _ hc2 (by decide) (by decide)
    have hre1 : nrelRelationEntry mp n1 = none := nrelEntry_colon_none mp n1 hc1
    have hre2 : nrelRelationEntry mp n2 = none := nrelEntry_colon_none mp n2 hc2
    have hm1 : ¬(n1 ∈ pf) := not_mem_of_colon pf hpf n1 hc1
    have hm2 : ¬(n2 ∈ pf) := not_mem_of_colon pf hpf n2 hc2
    refine ⟨?_, ?_, ?_, ?_, ?_⟩
    · rw [registerWidget_rels, registerWidget_rels, hre1, hre2]; exact e1
    · rw [registerWidget_fields, registerWidget_fields]
      simp [h1a, h1b, hm1, hm2, hkv1, hkv2, him1, him2]
      exact e2
    · rw [registerWidget_buttons, registerWidget_buttons]
      simp [h1a, h1b, hm1, hm2, hkv1, hkv2, him1, him2, hbt1, hbt2]
      exact e3
    · rw [registerWidget_nrels, registerWidget_nrels]
      simp [h1a, h1b, hm1, hm2, hkv1, hkv2, him1, him2, hbt1, hbt2, hnr1, hnr2]
      exact e4
    · rw [registerWidget_exts, registerWidget_exts]
      simp [hex1, hex2]
      exact e5



/-- Names that are equal or both synthetic erase to the same name. -/
theorem eraseSynth_eq_of (n1 n2 : String)
    (h : n1 = n2 ∨ (strStartsWith n1 ":" = true ∧ strStartsWith n2 ":" = true)) :
    eraseSynth (some n1) = eraseSynth (some n2) := by
  rcases h with rfl | ⟨h1, h2⟩
  · rfl
  · simp [eraseSynth, h1, h2]

/-- Names that are equal or both synthetic agree on the `nrel__` prefix
test. -/
theorem nrel_prefix_eq_of (n1 n2 : String)
    (h : n1 = n2 ∨ (strStartsWith n1 ":" = true ∧ strStartsWith n2 ":" = true)) :
    strStartsWith n1 "nrel__" = strStartsWith n2 "nrel__" := by
  rcases h with rfl | ⟨h1, h2⟩
  · rfl
  · rw [colon_no_other _ _ h1 (by decide) (by decide),
      colon_no_other _ _ h2 (by decide) (by decide)]

/-- Name assignment touches no registry (widget version). -/
theorem nextWName_regs (f nm : Option String) (s : RSt) :
    (nextWName f nm s).2.rels = s.rels ∧ (nextWName f nm s).2.fields = s.fields ∧
    (nextWName f nm s).2.buttons = s.buttons ∧ (nextWName f nm s).2.nrels = s.nrels ∧
    (nextWName f nm s).2.exts = s.exts := by
  cases f with
  | some a => exact ⟨rfl, rfl, rfl, rfl, rfl⟩
  | none =>
    cases nm with
    | none => exact ⟨rfl, rfl, rfl, rfl, rfl⟩
    | some n =>
      by_cases hn : n = "" <;> simp [nextWName, freshWName, hn]

/-- Name assignment touches no registry (layout version). -/
theorem nextLName_regs (nm : Option String) (s : RSt) :
    (nextLName nm s).2.rels = s.rels ∧ (nextLName nm s).2.fields = s.fields ∧
    (nextLName nm s).2.buttons = s.buttons ∧ (nextLName nm s).2.nrels = s.nrels ∧
    (nextLName nm s).2.exts = s.exts := by
  cases nm with
  | none => exact ⟨rfl, rfl, rfl, rfl, rfl⟩
  | some n =>
    by_cases hn : n = "" <;> simp [nextLName, freshLName, hn]

/-- Widget-name assignment preserves semantic agreement of states. -/
theorem StSim_nextWName (f1 f2 nm : Option String) (s1 s2 : RSt) (hs : StSim s1 s2) :
    StSim (nextWName f1 nm s1).2 (nextWName f2 nm s2).2 := by
  obtain ⟨r1, r2, r3, r4, r5⟩ := hs
  obtain ⟨a1, a2, a3, a4, a5⟩ := nextWName_regs f1 nm s1
  obtain ⟨b1, b2, b3, b4, b5⟩ := nextWName_regs f2 nm s2
  exact ⟨a1.trans (r1.trans b1.symm), by rw [a2, b2]; exact r2, by rw [a3, b3]; exact r3,
    by rw [a4, b4]; exact r4, a5.trans (r5.trans b5.symm)⟩

/-- Layout-name assignment preserves semantic agreement of states. -/
theorem StSim_nextLName (nm : Option String) (s1 s2 : RSt) (hs : StSim s1 s2) :
    StSim (nextLName nm s1).2 (nextLName nm s2).2 := by
  obtain ⟨r1, r2, r3, r4, r5⟩ := hs
  obtain ⟨a1, a2, a3, a4, a5⟩ := nextLName_regs nm s1
  obtain ⟨b1, b2, b3, b4, b5⟩ := nextLName_regs nm s2
  exact ⟨a1.trans (r1.trans b1.symm), by rw [a2, b2]; exact r2, by rw [a3, b3]; exact r3,
    by rw [a4, b4]; exact r4, a5.trans (r5.trans b5.symm)⟩

/-- Drawing a fresh widget name preserves semantic agreement (only the
counter changes). -/
theorem StSim_freshW (s1 s2 : RSt) (hs : StSim s1 s2) :
    StSim (freshWName s1).2 (freshWName s2).2 := hs

/-- Two runs of the widget-name assignment from similar pre-assigned
names produce names that are equal or both synthetic. -/
theorem nextWName_name_sim (f1 f2 nm : Option String) (s1 s2 : RSt) (hf : nameSim f1 f2) :
    (nextWName f1 nm s1).1 = (nextWName f2 nm s2).1 ∨
      (strStartsWith (nextWName f1 nm s1).1 ":" = true ∧
       strStartsWith (nextWName f2 nm s2).1 ":" = true) := by
  cases f1 with
  | some a =>
    cases f2 with
    | some b =>
      rcases hf with heq | ⟨hca, hcb⟩
      · left; simp only [nextWName]; exact heq
      · right; exact ⟨hca, hcb⟩
    | none => exact absurd hf (by simp [nameSim])
  | none =>
    cases f2 with
    | some b => exact absurd hf (by simp [nameSim])
    | none =>
      cases nm with
      | none =>
        right
        exact ⟨strStartsWith_append_colon _ _ (by decide),
          strStartsWith_append_colon _ _ (by decide)⟩
      | some n =>
        by_cases hn : n = ""
        · right
          simp only [nextWName, hn, if_pos]
          exact ⟨strStartsWith_append_colon _ _ (by decide),
            strStartsWith_append_colon _ _ (by decide)⟩
        · left
          simp only [nextWName, if_neg hn]

/-- Two runs of the layout-name assignment produce names that are equal
or both synthetic. -/
theorem nextLName_name_sim (nm : Option String) (s1 s2 : RSt) :
    (nextLName nm s1).1 = (nextLName nm s2).1 ∨
      (strStartsWith (nextLName nm s1).1 ":" = true ∧
       strStartsWith (nextLName nm s2).1 ":" = true) := by
  cases nm with
  | none =>
    right
    exact ⟨strStartsWith_append_colon _ _ (by decide),
      strStartsWith_append_colon _ _ (by decide)⟩
  | some n =>
    by_cases hn : n = ""
    · right
      simp only [nextLName, hn, if_pos]
      exact ⟨strStartsWith_append_colon _ _ (by decide),
        strStartsWith_append_colon _ _ (by decide)⟩
    · left
      simp only [nextLName, if_neg hn]



/-- The joint simulation argument for C7, by strong induction on node
size over all entry points of the normalization recursion: starting two
runs from semantically agreeing registry states (with arbitrary counter
values) and similar pre-assigned names, the resulting trees are equal
after synthetic-name erasure, the `verticalFill` results are equal, and
the final registry states agree semantically. -/
theorem reformat_sim (pf : List String) (mp : String)
    (hpf : ∀ k ∈ pf, strStartsWith k ":" = false) : ∀ N : Nat,
    (∀ (f1 f2 : Option String) (w : Widget) (s1 s2 : RSt), sizeOf w ≤ N →
      nameSim f1 f2 → StSim s1 s2 →
      eraseW (reformatWidget pf mp f1 w s1).1 = eraseW (reformatWidget pf mp f2 w s2).1 ∧
      (reformatWidget pf mp f1 w s1).2.1 = (reformatWidget pf mp f2 w s2).2.1 ∧
      StSim (reformatWidget pf mp f1 w s1).2.2 (reformatWidget pf mp f2 w s2).2.2) ∧
    (∀ (ws : List Widget) (s1 s2 : RSt), sizeOf ws ≤ N → StSim s1 s2 →
      eraseWList (reformatWidgetItems pf mp ws s1).1 = eraseWList (reformatWidgetItems pf mp ws s2).1 ∧
      (reformatWidgetItems pf mp ws s1).2.1 = (reformatWidgetItems pf mp ws s2).2.1 ∧
      StSim (reformatWidgetItems pf mp ws s1).2.2 (reformatWidgetItems pf mp ws s2).2.2) ∧
    (∀ (ws : List Widget) (s1 s2 : RSt), sizeOf ws ≤ N → StSim s1 s2 →
      eraseWList (reformatForcedChildren pf mp ws s1).1 = eraseWList (reformatForcedChildren pf mp ws s2).1 ∧
      (reformatForcedChildren pf mp ws s1).2.1 = (reformatForcedChildren pf mp ws s2).2.1 ∧
      StSim (reformatForcedChildren pf mp ws s1).2.2 (reformatForcedChildren pf mp ws s2).2.2) ∧
    (∀ (ol : Option Layout) (s1 s2 : RSt), sizeOf ol ≤ N → StSim s1 s2 →
      eraseOptL (reformatOptLayout pf mp ol s1).1 = eraseOptL (reformatOptLayout pf mp ol s2).1 ∧
      (reformatOptLayout pf mp ol s1).2.1 = (reformatOptLayout pf mp ol s2).2.1 ∧
      StSim (reformatOptLayout pf mp ol s1).2.2 (reformatOptLayout pf mp ol s2).2.2) ∧
    (∀ (l : Layout) (s1 s2 : RSt), sizeOf l ≤ N → StSim s1 s2 →
      eraseL (reformatLayout pf mp l s1).1 = eraseL (reformatLayout pf mp l s2).1 ∧
      (reformatLayout pf mp l s1).2.1 = (reformatLayout pf mp l s2).2.1 ∧
      StSim (reformatLayout pf mp l s1).2.2 (reformatLayout pf mp l s2).2.2) ∧
    (∀ (its : List Item) (s1 s2 : RSt), sizeOf its ≤ N → StSim s1 s2 →
      eraseIList (reformatItems pf mp its s1).1 = eraseIList (reformatItems pf mp its s2).1 ∧
      (reformatItems pf mp its s1).2.1 = (reformatItems pf mp its s2).2.1 ∧
      StSim (reformatItems pf mp its s1).2.2 (reformatItems pf mp its s2).2.2) ∧
    (∀ (it : Item) (s1 s2 : RSt), sizeOf it ≤ N → StSim s1 s2 →
      eraseI (reformatItem pf mp it s1).1 = eraseI (reformatItem pf mp it s2).1 ∧
      (reformatItem pf mp it s1).2.1 = (reformatItem pf mp it s2).2.1 ∧
      StSim (reformatItem pf mp it s1).2.2 (reformatItem pf mp it s2).2.2) := by
  intro N
  induction N using Nat.strong_induction_on with
  | _ N IH =>
  refine ⟨?_, ?_, ?_, ?_, ?_, ?_, ?_⟩
  · intro f1 f2 w s1 s2 hN hf hs
    cases w with
    | mk wc nm props attrs items wlay ch =>
      have hszItems : sizeOf items < sizeOf (Widget.mk wc nm props attrs items wlay ch) := by
        simp only [Widget.mk.sizeOf_spec]; omega
      have hszLay : sizeOf wlay < sizeOf (Widget.mk wc nm props attrs items wlay ch) := by
        simp only [Widget.mk.sizeOf_spec]; omega
      have hszCh : sizeOf ch < sizeOf (Widget.mk wc nm props attrs items wlay ch) := by
        simp only [Widget.mk.sizeOf_spec]; omega
      rcases h1a : reformatWidgetItems pf mp items s1 with ⟨items1, vfA1, sA1⟩
      rcases h1b : reformatWidgetItems pf mp items s2 with ⟨items2, vfA2, sA2⟩
      obtain ⟨q1, q2, q3⟩ := (IH (sizeOf items) (lt_of_lt_of_le hszItems hN)).2.1
        items s1 s2 (le_refl _) hs
      rw [h1a, h1b] at q1 q2 q3
      dsimp only at q1 q2 q3
      rcases h2a : nextWName f1 nm sA1 with ⟨n1, sB1⟩
      rcases h2b : nextWName f2 nm sA2 with ⟨n2, sB2⟩
      have hname : n1 = n2 ∨ (strStartsWith n1 ":" = true ∧ strStartsWith n2 ":" = true) := by
        have hh := nextWName_name_sim f1 f2 nm sA1 sA2 hf
        rw [h2a, h2b] at hh; exact hh
      have hsB : StSim sB1 sB2 := by
        have hh := StSim_nextWName f1 f2 nm sA1 sA2 q3
        rw [h2a, h2b] at hh; exact hh
      rcases h3a : reformatOptLayout pf mp wlay sB1 with ⟨lay1, vfB1, sC1⟩
      rcases h3b : reformatOptLayout pf mp wlay sB2 with ⟨lay2, vfB2, sC2⟩
      obtain ⟨r1, r2, r3⟩ := (IH (sizeOf wlay) (lt_of_lt_of_le hszLay hN)).2.2.2.1
        wlay sB1 sB2 (le_refl _) hsB
      rw [h3a, h3b] at r1 r2 r3
      dsimp only at r1 r2 r3
      rcases h4a : reformatForcedChildren pf mp ch sC1 with ⟨ch1, vfC1, sD1⟩
      rcases h4b : reformatForcedChildren pf mp ch sC2 with ⟨ch2, vfC2, sD2⟩
      obtain ⟨t1, t2, t3⟩ := (IH (sizeOf ch) (lt_of_lt_of_le hszCh hN)).2.2.1
        ch sC1 sC2 (le_refl _) r3
      rw [h4a, h4b] at t1 t2 t3
      dsimp only at t1 t2 t3
      have hfinal : eraseW (Widget.mk wc (some n1)
            (some (normalizeProps (props.getD []))) (some (normalizeProps (attrs.getD [])))
            items1 lay1 ch1) =
          eraseW (Widget.mk wc (some n2)
            (some (normalizeProps (props.getD []))) (some (normalizeProps (attrs.getD [])))
            items2 lay2 ch2) := by
        simp only [eraseW]
        rw [q1, r1, t1, eraseSynth_eq_of n1 n2 hname]
      simp only [reformatWidget, h1a, h2a, h3a, h4a, h1b, h2b, h3b, h4b]
      refine ⟨hfinal, ?_, ?_⟩
      · rw [nrel_prefix_eq_of n1 n2 hname, q2, r2, t2]
      · exact registerWidget_sim pf mp hpf n1 n2 _ _ sD1 sD2 hname hfinal t3
  · intro ws s1 s2 hN hs
    cases ws with
    | nil => exact ⟨rfl, rfl, hs⟩
    | cons w rest =>
      have hszW : sizeOf w < sizeOf (w :: rest) := by
        simp only [List.cons.sizeOf_spec]; omega
      have hszRest : sizeOf rest < sizeOf (w :: rest) := by
        simp only [List.cons.sizeOf_spec]; omega
      rcases h1a : reformatWidget pf mp none w s1 with ⟨w1, v1, sA1⟩
      rcases h1b : reformatWidget pf mp none w s2 with ⟨w2, v2, sA2⟩
      obtain ⟨q1, q2, q3⟩ := (IH (sizeOf w) (lt_of_lt_of_le hszW hN)).1
        none none w s1 s2 (le_refl _) trivial hs
      rw [h1a, h1b] at q1 q2 q3
      dsimp only at q1 q2 q3
      rcases h2a : reformatWidgetItems pf mp rest sA1 with ⟨rest1, v21, sB1⟩
      rcases h2b : reformatWidgetItems pf mp rest sA2 with ⟨rest2, v22, sB2⟩
      obtain ⟨r1, r2, r3⟩ := (IH (sizeOf rest) (lt_of_lt_of_le hszRest hN)).2.1
        rest sA1 sA2 (le_refl _) q3
      rw [h2a, h2b] at r1 r2 r3
      dsimp only at r1 r2 r3
      simp only [reformatWidgetItems, h1a, h2a, h1b, h2b]
      refine ⟨?_, ?_, r3⟩
      · simp only [eraseWList]
        rw [q1, r1]
      · rw [q2, r2]
  · intro ws s1 s2 hN hs
    cases ws with
    | nil => exact ⟨rfl, rfl, hs⟩
    | cons w rest =>
      have hszW : sizeOf w < sizeOf (w :: rest) := by
        simp only [List.cons.sizeOf_spec]; omega
      have hszRest : sizeOf rest < sizeOf (w :: rest) := by
        simp only [List.cons.sizeOf_spec]; omega
      rcases hfa : freshWName s1 with ⟨fn1, sF1⟩
      rcases hfb : freshWName s2 with ⟨fn2, sF2⟩
      have hfn1 : fn1 = ":widget_" ++ toString s1.wc := by
        simp only [freshWName] at hfa
        exact (Prod.mk.injEq _ _ _ _ ▸ hfa : _ ∧ _).1.symm
      have hfn2 : fn2 = ":widget_" ++ toString s2.wc := by
        simp only [freshWName] at hfb
        exact (Prod.mk.injEq _ _ _ _ ▸ hfb : _ ∧ _).1.symm
      have hnsim : nameSim (some fn1) (some fn2) := by
        right
        rw [hfn1, hfn2]
        exact ⟨strStartsWith_append_colon _ _ (by decide),
          strStartsWith_append_colon _ _ (by decide)⟩
      have hsF : StSim sF1 sF2 := by
        have hh : StSim (freshWName s1).2 (freshWName s2).2 := StSim_freshW s1 s2 hs
        rw [hfa, hfb] at hh; exact hh
      rcases h1a : reformatWidget pf mp (some fn1) w sF1 with ⟨w1, v1, sA1⟩
      rcases h1b : reformatWidget pf mp (some fn2) w sF2 with ⟨w2, v2, sA2⟩
      obtain ⟨q1, q2, q3⟩ := (IH (sizeOf w) (lt_of_lt_of_le hszW hN)).1
        (some fn1) (some fn2) w sF1 sF2 (le_refl _) hnsim hsF
      rw [h1a, h1b] at q1 q2 q3
      dsimp only at q1 q2 q3
      rcases h2a : reformatForcedChildren pf mp rest sA1 with ⟨rest1, v21, sB1⟩
      rcases h2b : reformatForcedChildren pf mp rest sA2 with ⟨rest2, v22, sB2⟩
      obtain ⟨r1, r2, r3⟩ := (IH (sizeOf rest) (lt_of_lt_of_le hszRest hN)).2.2.1
        rest sA1 sA2 (le_refl _) q3
      rw [h2a, h2b] at r1 r2 r3
      dsimp only at r1 r2 r3
      simp only [reformatForcedChildren, hfa, hfb, h1a, h2a, h1b, h2b]
      refine ⟨?_, ?_, r3⟩
      · simp only [eraseWList]
        rw [q1, r1]
      · rw [q2, r2]
  · intro ol s1 s2 hN hs
    cases ol with
    | none => exact ⟨rfl, rfl, hs⟩
    | some l =>
      have hszL : sizeOf l < sizeOf (some l : Option Layout) := by
        simp only [Option.some.sizeOf_spec]; omega
      rcases h1a : reformatLayout pf mp l s1 with ⟨l1, v1, sA1⟩
      rcases h1b : reformatLayout pf mp l s2 with ⟨l2, v2, sA2⟩
      obtain ⟨q1, q2, q3⟩ := (IH (sizeOf l) (lt_of_lt_of_le hszL hN)).2.2.2.2.1
        l s1 s2 (le_refl _) hs
      rw [h1a, h1b] at q1 q2 q3
      dsimp only at q1 q2 q3
      simp only [reformatOptLayout, h1a, h1b]
      refine ⟨?_, q2, q3⟩
      simp only [eraseOptL]
      rw [q1]
  · intro l s1 s2 hN hs
    cases l with
    | mk lc nm items vf0 =>
      have hszItems : sizeOf items < sizeOf (Layout.mk lc nm items vf0) := by
        simp only [Layout.mk.sizeOf_spec]; omega
      rcases h1a : nextLName nm s1 with ⟨n1, sA1⟩
      rcases h1b : nextLName nm s2 with ⟨n2, sA2⟩
      have hname : n1 = n2 ∨ (strStartsWith n1 ":" = true ∧ strStartsWith n2 ":" = true) := by
        have hh := nextLName_name_sim nm s1 s2
        rw [h1a, h1b] at hh; exact hh
      have hsA : StSim sA1 sA2 := by
        have hh := StSim_nextLName nm s1 s2 hs
        rw [h1a, h1b] at hh; exact hh
      rcases h2a : reformatItems pf mp items sA1 with ⟨items1, v1, sB1⟩
      rcases h2b : reformatItems pf mp items sA2 with ⟨items2, v2, sB2⟩
      obtain ⟨q1, q2, q3⟩ := (IH (sizeOf items) (lt_of_lt_of_le hszItems hN)).2.2.2.2.2.1
        items sA1 sA2 (le_refl _) hsA
      rw [h2a, h2b] at q1 q2 q3
      dsimp only at q1 q2 q3
      simp only [reformatLayout, h1a, h1b, h2a, h2b]
      refine ⟨?_, q2, q3⟩
      simp only [eraseL]
      rw [q1, q2, eraseSynth_eq_of n1 n2 hname]
  · intro its s1 s2 hN hs
    cases its with
    | nil => exact ⟨rfl, rfl, hs⟩
    | cons it rest =>
      have hszIt : sizeOf it < sizeOf (it :: rest) := by
        simp only [List.cons.sizeOf_spec]; omega
      have hszRest : sizeOf rest < sizeOf (it :: rest) := by
        simp only [List.cons.sizeOf_spec]; omega
      rcases h1a : reformatItem pf mp it s1 with ⟨it1, v1, sA1⟩
      rcases h1b : reformatItem pf mp it s2 with ⟨it2, v2, sA2⟩
      obtain ⟨q1, q2, q3⟩ := (IH (sizeOf it) (lt_of_lt_of_le hszIt hN)).2.2.2.2.2.2
        it s1 s2 (le_refl _) hs
      rw [h1a, h1b] at q1 q2 q3
      dsimp only at q1 q2 q3
      rcases h2a : reformatItems pf mp rest sA1 with ⟨rest1, v21, sB1⟩
      rcases h2b : reformatItems pf mp rest sA2 with ⟨rest2, v22, sB2⟩
      obtain ⟨r1, r2, r3⟩ := (IH (sizeOf rest) (lt_of_lt_of_le hszRest hN)).2.2.2.2.2.1
        rest sA1 sA2 (le_refl _) q3
      rw [h2a, h2b] at r1 r2 r3
      dsimp only at r1 r2 r3
      simp only [reformatItems, h1a, h2a, h1b, h2b]
      refine ⟨?_, ?_, r3⟩
      · simp only [eraseIList]
        rw [q1, r1]
      · rw [q2, r2]
  · intro it s1 s2 hN hs
    cases it with
    | inone => exact ⟨rfl, rfl, hs⟩
    | ispacer r c rs cs props => exact ⟨rfl, rfl, hs⟩
    | iwidget r c rs cs w =>
      have hszW : sizeOf w < sizeOf (Item.iwidget r c rs cs w) := by
        simp only [Item.iwidget.sizeOf_spec]; omega
      rcases h1a : reformatWidget pf mp none w s1 with ⟨w1, v1, sA1⟩
      rcases h1b : reformatWidget pf mp none w s2 with ⟨w2, v2, sA2⟩
      obtain ⟨q1, q2, q3⟩ := (IH (sizeOf w) (lt_of_lt_of_le hszW hN)).1
        none none w s1 s2 (le_refl _) trivial hs
      rw [h1a, h1b] at q1 q2 q3
      dsimp only at q1 q2 q3
      simp only [reformatItem, h1a, h1b]
      refine ⟨?_, q2, q3⟩
      simp only [eraseI]
      rw [q1]
    | ilayout r c rs cs l =>
      have hszL : sizeOf l < sizeOf (Item.ilayout r c rs cs l) := by
        simp only [Item.ilayout.sizeOf_spec]; omega
      rcases h1a : reformatLayout pf mp l s1 with ⟨l1, v1, sA1⟩
      rcases h1b : reformatLayout pf mp l s2 with ⟨l2, v2, sA2⟩
      obtain ⟨q1, q2, q3⟩ := (IH (sizeOf l) (lt_of_lt_of_le hszL hN)).2.2.2.2.1
        l s1 s2 (le_refl _) hs
      rw [h1a, h1b] at q1 q2 q3
      dsimp only at q1 q2 q3
      simp only [reformatItem, h1a, h1b]
      refine ⟨?_, q2, q3⟩
      simp only [eraseI]
      rw [q1]



/-- C7: parsing the same document twice yields trees with the same
semantic structure.  The normalized tree and the
`fields`/`buttons`/`nrels`/`externalFields` registries and
`relationTables` descriptors are, up to erasure of the synthetic names,
independent of the synthetic-name counter seeds (counter values `wc1/lc1`
versus `wc2/lc2`), provided no real field key starts with a colon; the
actual parse (`parseFormTree`, seeded at zero as `parseForm` does on
every invocation) is an instance, so two parses of the same input agree
semantically while their synthetic names may differ. -/
theorem C7_parse_semantic_structure (pf : List String) (mp : String) (root : Widget)
    (hpf : ∀ k ∈ pf, strStartsWith k ":" = false) (wc1 lc1 wc2 lc2 : Nat) :
    eraseW (reformatWidget pf mp none root ⟨wc1, lc1, [], [], [], [], [], []⟩).1 =
      eraseW (reformatWidget pf mp none root ⟨wc2, lc2, [], [], [], [], [], []⟩).1 ∧
    StSim (reformatWidget pf mp none root ⟨wc1, lc1, [], [], [], [], [], []⟩).2.2
      (reformatWidget pf mp none root ⟨wc2, lc2, [], [], [], [], [], []⟩).2.2 ∧
    eraseW (parseFormTree pf mp root).1 =
      eraseW (reformatWidget pf mp none root ⟨wc1, lc1, [], [], [], [], [], []⟩).1 ∧
    StSim (parseFormTree pf mp root).2
      (reformatWidget pf mp none root ⟨wc1, lc1, [], [], [], [], [], []⟩).2.2 := by
  have hmain := (reformat_sim pf mp hpf (sizeOf root)).1 none none root
    ⟨wc1, lc1, [], [], [], [], [], []⟩ ⟨wc2, lc2, [], [], [], [], [], []⟩
    (le_refl _) trivial ⟨rfl, rfl, rfl, rfl, rfl⟩
  have hzero := (reformat_sim pf mp hpf (sizeOf root)).1 none none root
    initRSt ⟨wc1, lc1, [], [], [], [], [], []⟩ (le_refl _) trivial ⟨rfl, rfl, rfl, rfl, rfl⟩
  refine ⟨hmain.1, hmain.2.2, ?_, ?_⟩
  · rcases hr : reformatWidget pf mp none root initRSt with ⟨w0, v0, s0⟩
    have h0 := hzero.1
    rw [hr] at h0
    simp only [parseFormTree, hr]
    exact h0
  · rcases hr : reformatWidget pf mp none root initRSt with ⟨w0, v0, s0⟩
    have h0 := hzero.2.2
    rw [hr] at h0
    simp only [parseFormTree, hr]
    exact h0


/-- Witness for `C7_parse_semantic_structure`. -/
theorem C7_parse_semantic_structure_witness :
    (∀ k ∈ ["field1"], strStartsWith k ":" = false) ∧
    (eraseW (reformatWidget ["field1"] "m." none (Widget.mk "QWidget" none none none [] none [])
          ⟨0, 0, [], [], [], [], [], []⟩).1 =
        eraseW (reformatWidget ["field1"] "m." none (Widget.mk "QWidget" none none none [] none [])
          ⟨5, 7, [], [], [], [], [], []⟩).1 ∧
      StSim (reformatWidget ["field1"] "m." none (Widget.mk "QWidget" none none none [] none [])
          ⟨0, 0, [], [], [], [], [], []⟩).2.2
        (reformatWidget ["field1"] "m." none (Widget.mk "QWidget" none none none [] none [])
          ⟨5, 7, [], [], [], [], [], []⟩).2.2 ∧
      eraseW (parseFormTree ["field1"] "m." (Widget.mk "QWidget" none none none [] none [])).1 =
        eraseW (reformatWidget ["field1"] "m." none (Widget.mk "QWidget" none none none [] none [])
          ⟨0, 0, [], [], [], [], [], []⟩).1 ∧
      StSim (parseFormTree ["field1"] "m." (Widget.mk "QWidget" none none none [] none [])).2
        (reformatWidget ["field1"] "m." none (Widget.mk "QWidget" none none none [] none [])
          ⟨0, 0, [], [], [], [], [], []⟩).2.2) :=
  ⟨by decide, C7_parse_semantic_structure ["field1"] "m." _ (by decide) 0 0 5 7⟩

end ClaimTheoremsB
